import Mathlib

/-! # Balltze memory core: byte writer, signatures and the signature registry

A shallow embedding of `src/balltze/memory/memory.cpp`.

* Addresses are natural numbers, a byte is a natural number below 256.
* The process memory a patch primitive works on is a `Machine`: the byte stored
  at every address and the protection value of every 4 KiB page.
* C++ exceptions are values of `Exception`; a function that may throw returns
  `Except Exception _`.
* A raw pointer to an array (`const std::uint16_t *data`) is the function from
  an index to the element stored there.
-/

namespace Balltze.Memory

/-! ## Machine state -/

/-- Byte contents of the address space: the byte stored at each address. -/
abbrev Bytes := Nat → Nat

/-- Process memory: the byte at every address and the protection value of every page. -/
structure Machine where
  mem : Bytes
  prot : Nat → Nat

/-- Size of a page of the host, in bytes. -/
def PAGE_SIZE : Nat := 4096

/-- The Windows protection constant `PAGE_EXECUTE_READWRITE`. -/
def PAGE_EXECUTE_READWRITE : Nat := 0x40

/-- Store one byte: `*(std::uint8_t *)address = value`. -/
def store (mem : Bytes) (address value : Nat) : Bytes :=
  fun a => if a = address then value else mem a

/-- The pages that hold a byte of `[pointer, pointer + length)`. -/
def in_pages (pointer length page : Nat) : Prop :=
  0 < length ∧ pointer / PAGE_SIZE ≤ page ∧ page ≤ (pointer + length - 1) / PAGE_SIZE

instance (pointer length page : Nat) : Decidable (in_pages pointer length page) := by
  unfold in_pages; infer_instance

/-- The host call `VirtualProtect(pointer, length, new_protection, &old_protection)`:
every page holding a byte of the range gets the new protection, the bytes stay as
they are, and the protection the first page had is handed back. -/
def VirtualProtect (m : Machine) (pointer length new_protection : Nat) : Machine × Nat :=
  ({ m with prot := fun page => if in_pages pointer length page then new_protection else m.prot page },
   m.prot (pointer / PAGE_SIZE))

/-! ## write_code -/

/-- Integral promotion of a `std::uint16_t` to `int`. -/
def promote_uint16 (x : Nat) : Int := Int.ofNat (x % 65536)

/-- The conversion `static_cast<std::uint8_t>(x)`. -/
def to_uint8 (x : Nat) : Nat := x % 256

/-- The copy loop of `write_code` after its first `n` iterations (`i = 0 .. n-1`):
```
for(std::size_t i = 0; i < length; i++) {
    if(data[i] != -1) {
        *(reinterpret_cast<std::uint8_t *>(pointer) + i) = static_cast<std::uint8_t>(data[i]);
    }
}
```
`data[i]` is a `std::uint16_t`; in `data[i] != -1` it is promoted to `int`. -/
def write_code_copy (pointer : Nat) (data : Nat → Nat) : Nat → Bytes → Bytes
  | 0, mem => mem
  | i + 1, mem =>
    let mem1 := write_code_copy pointer data i mem
    if promote_uint16 (data i) ≠ -1 then
      store mem1 (pointer + i) (to_uint8 (data i % 65536))
    else
      mem1

/-- Model of `write_code(void *pointer, const std::uint16_t *data, std::size_t length)`. -/
def write_code (m : Machine) (pointer : Nat) (data : Nat → Nat) (length : Nat) : Machine :=
  let new_protection := PAGE_EXECUTE_READWRITE
  -- Apply read/write/execute protection
  let (m1, old_protection) := VirtualProtect m pointer length new_protection
  -- Copy
  let m2 : Machine := { m1 with mem := write_code_copy pointer data length m1.mem }
  -- Restore the older protection unless it's the same
  if new_protection ≠ old_protection then
    (VirtualProtect m2 pointer length old_protection).1
  else
    m2

/-! ## overwrite and fill_with_nops -/

/-- Modelled from the spec: the template `overwrite(pointer, data, length)` of
`balltze/memory.hpp`, which is not among the sources. The spec (4.3) gives it the
same protection sequence as `write_code` around a plain byte copy: "temporarily
changes the memory page protection ... performs the byte copy, then restores the
page's prior protection flags". This is the copy of the first `n` bytes. -/
def overwrite_copy (pointer : Nat) (data : Nat → Nat) : Nat → Bytes → Bytes
  | 0, mem => mem
  | i + 1, mem => store (overwrite_copy pointer data i mem) (pointer + i) (data i)

/-- Modelled from the spec: `overwrite(address, bytes, length)` of `balltze/memory.hpp`
(4.3 of the spec), instantiated at `std::byte`. -/
def overwrite (m : Machine) (pointer : Nat) (data : Nat → Nat) (length : Nat) : Machine :=
  let new_protection := PAGE_EXECUTE_READWRITE
  let (m1, old_protection) := VirtualProtect m pointer length new_protection
  let m2 : Machine := { m1 with mem := overwrite_copy pointer data length m1.mem }
  if new_protection ≠ old_protection then
    (VirtualProtect m2 pointer length old_protection).1
  else
    m2

/-- Modelled from the spec: the one-value form `overwrite(pointer, value)` of
`balltze/memory.hpp`, an `overwrite` of length one. -/
def overwrite_value (m : Machine) (pointer value : Nat) : Machine :=
  overwrite m pointer (fun _ => value) 1

/-- The loop of `fill_with_nops` after its first `n` iterations:
`overwrite(bytes + i, static_cast<std::byte>(0x90))`. -/
def fill_with_nops_loop (address : Nat) : Nat → Machine → Machine
  | 0, m => m
  | i + 1, m => overwrite_value (fill_with_nops_loop address i m) (address + i) 0x90

/-- Model of `fill_with_nops(void *address, std::size_t length)`. -/
def fill_with_nops (m : Machine) (address length : Nat) : Machine :=
  fill_with_nops_loop address length m

/-! ## Exceptions -/

/-- The C++ exceptions the memory core throws: `std::runtime_error`,
`std::invalid_argument`, `std::out_of_range` and `std::length_error`, each with its
`what()` text. -/
inductive Exception where
  | runtime_error (what : String)
  | invalid_argument (what : String)
  | out_of_range (what : String)
  | length_error (what : String)
  deriving DecidableEq, Repr

/-! ## Signature -/

/-- The class `Signature`: its members `m_name`, `m_data` and `m_original_data`. -/
structure Signature where
  m_name : String
  m_data : Nat
  m_original_data : List Nat
  deriving DecidableEq, Repr

/-- Model of `Signature::name()`. -/
def Signature.name (s : Signature) : String := s.m_name

/-- Model of `Signature::data()`. -/
def Signature.data (s : Signature) : Nat := s.m_data

/-- The bytes of the iterator range `[first, last)`, as
`m_original_data.insert(m_original_data.begin(), first, last)` copies them.
The range holds `last - first` bytes; C++ requires `first <= last`, and the
constructor model does not reach this copy with a reversed range. -/
def read_range (mem : Bytes) (first last : Nat) : List Nat :=
  (List.range (last - first)).map (fun i => mem (first + i))

/-- Model of `Signature::restore()`:
`overwrite(m_data, m_original_data.data(), m_original_data.size())`. -/
def Signature.restore (s : Signature) (m : Machine) : Machine :=
  overwrite m s.m_data (fun i => s.m_original_data.getD i 0) s.m_original_data.length

/-- The scanner `FindCode(GetModuleHandle(0), signature, lenght, match_num)` of
`codefinder.hpp`, which is not among the sources, is a parameter of the model: from
the memory image, the pattern array, its length and the occurrence index it gives
the address of the match, or `0` (the null pointer) when there is none. -/
abbrev Scanner := Bytes → List Int → Nat → Nat → Nat

/-- Model of the constructor
`Signature::Signature(name, signature, lenght, offset, match_num)`.

The statement
`m_original_data.insert(m_original_data.begin(), address + offset, address + lenght)`
copies the range `[address + offset, address + lenght)`. With `offset > lenght` the
range is reversed: the distance from first to last, taken as a size, is more than a
vector can hold, the insert of libstdc++ throws `std::length_error` and no Signature
is constructed although the scanner found the pattern. -/
def Signature.Signature (FindCode : Scanner) (mem : Bytes) (name : String)
    (signature : List Int) (lenght offset match_num : Nat) :
    Except Exception Balltze.Memory.Signature :=
  let address := FindCode mem signature lenght match_num
  if address ≠ 0 then
    if offset ≤ lenght then
      .ok { m_name := name,
            m_data := address + offset,
            m_original_data := read_range mem (address + offset) (address + lenght) }
    else
      .error (.length_error "vector::_M_range_insert")
  else
    .error (.runtime_error ("Could not find signature " ++ name))

/-! ## The registry -/

/-- Process-wide state of the memory core: the registry
`static std::vector<Signature> signatures` and the texts handed to `logger.warning`. -/
structure State where
  signatures : List Signature
  warnings : List String

/-- The search loop of `get_signature`: the first element whose `name()` is `name`. -/
def get_signature_loop (name : String) : List Signature → Option Signature
  | [] => none
  | signature :: rest =>
    if signature.name = name then some signature else get_signature_loop name rest

/-- Model of `get_signature(std::string name)`: the element found (`none` is
`nullptr`) and the state afterwards. -/
def get_signature (st : State) (name : String) : Option Signature × State :=
  match get_signature_loop name st.signatures with
  | some signature => (some signature, st)
  | none =>
    (none, { st with warnings := st.warnings ++ ["Could not find signature \"" ++ name ++ "\""] })

/-- What a call ends in when it does not return: here only the dereference of a
null pointer. -/
inductive Fault where
  | null_dereference
  deriving DecidableEq, Repr

/-- Model of `get_address_for_signature(const char *name)`:
`return get_signature(name)->data();`. -/
def get_address_for_signature (st : State) (name : String) : Except Fault Nat × State :=
  match get_signature st name with
  | (some signature, st1) => (.ok signature.data, st1)
  | (none, st1) => (.error .null_dereference, st1)

/-- Model of `find_signature(name, signature, lenght, offset, match_num)`: the
constructor's exception is caught and thrown again. -/
def find_signature (FindCode : Scanner) (mem : Bytes) (name : String)
    (signature : List Int) (lenght offset match_num : Nat) : Except Exception Signature :=
  match Signature.Signature FindCode mem name signature lenght offset match_num with
  | .ok s => .ok s
  | .error e => .error e

/-! ## The textual find_signature -/

/-- The C function `isspace` in the "C" locale. -/
def isspace (c : Char) : Bool :=
  c = ' ' ∨ (9 ≤ c.toNat ∧ c.toNat ≤ 13)

/-- Value of a character as a digit of `strtol`: `0-9`, then letters from 10 on. -/
def digit_value (c : Char) : Option Nat :=
  if '0' ≤ c ∧ c ≤ '9' then some (c.toNat - '0'.toNat)
  else if 'a' ≤ c ∧ c ≤ 'z' then some (c.toNat - 'a'.toNat + 10)
  else if 'A' ≤ c ∧ c ≤ 'Z' then some (c.toNat - 'A'.toNat + 10)
  else none

/-- Value of a character as a digit in the given base, if it is one. -/
def digit_in_base (base : Nat) (c : Char) : Option Nat :=
  match digit_value c with
  | some d => if d < base then some d else none
  | none => none

/-- Leading white space is skipped by `strtol`. -/
def skip_space : List Char → List Char
  | [] => []
  | c :: cs => if isspace c then skip_space cs else c :: cs

/-- An optional sign: whether it is a minus, and the rest. -/
def read_sign : List Char → Bool × List Char
  | [] => (false, [])
  | c :: cs => if c = '-' then (true, cs) else if c = '+' then (false, cs) else (false, c :: cs)

/-- In base 16 an initial `0x` or `0X` is skipped when a hexadecimal digit follows it. -/
def skip_0x (base : Nat) : List Char → List Char
  | c0 :: x :: d :: cs =>
    if base = 16 ∧ c0 = '0' ∧ (x = 'x' ∨ x = 'X') ∧ (digit_in_base 16 d).isSome then d :: cs
    else c0 :: x :: d :: cs
  | cs => cs

/-- The longest run of digits: its value, or the accumulator when there is no digit left
(`none` while no digit was read). -/
def read_digits (base : Nat) : List Char → Option Nat → Option Nat
  | [], acc => acc
  | c :: cs, acc =>
    match digit_in_base base c with
    | some d => read_digits base cs (some (base * acc.getD 0 + d))
    | none => acc

/-- The library call `std::stoi(str, nullptr, base)`: `strtol` on the text, then
`std::invalid_argument` when no digit was converted and `std::out_of_range` when the
value is not an `int`. -/
def stoi (str : List Char) (base : Nat) : Except Exception Int :=
  let (negative, rest) := read_sign (skip_space str)
  match read_digits base (skip_0x base rest) none with
  | none => .error (.invalid_argument "stoi")
  | some v =>
    let value : Int := if negative then -(v : Int) else (v : Int)
    if value < -2147483648 ∨ 2147483647 < value then .error (.out_of_range "stoi")
    else .ok value

/-- Conversion of an `int` to `short`, as `data.push_back(int)` on a
`std::vector<short>` does. -/
def to_short (v : Int) : Int := (v + 32768) % 65536 - 32768

/-- The decoding loop of the textual `find_signature`, on the rest of the string
from index `i` on, with the vector `data` built so far:
```
for(std::size_t i = 0; i < signature.size(); i += 2) {
    byte = signature.substr(i, 2);
    if(byte == "??") data.push_back(-1);
    else data.push_back(std::stoi(byte, nullptr, 16));
}
``` -/
def find_signature_decode : List Char → List Int → Except Exception (List Int)
  | [], data => .ok data
  | [a], data =>
    match stoi [a] 16 with
    | .ok v => .ok (data ++ [to_short v])
    | .error e => .error e
  | a :: b :: rest, data =>
    if [a, b] = ['?', '?'] then find_signature_decode rest (data ++ [-1])
    else
      match stoi [a, b] 16 with
      | .ok v => find_signature_decode rest (data ++ [to_short v])
      | .error e => .error e

/-- Model of the textual `find_signature(name, std::string signature, offset, match_num)`. -/
def find_signature_string (FindCode : Scanner) (mem : Bytes) (name : String)
    (signature : List Char) (offset match_num : Nat) : Except Exception Signature :=
  if signature.length % 2 ≠ 0 then
    .error (.runtime_error ("Invalid signature " ++ String.mk signature))
  else
    match find_signature_decode signature [] with
    | .error e => .error e
    | .ok data => Signature.Signature FindCode mem name data data.length offset match_num

/-! ## The catalog and its resolution -/

/-- One `FIND_SIGNATURE(name, offset, match_num, {...})` line of the source. -/
structure CatalogEntry where
  name : String
  offset : Nat
  match_num : Nat
  data : List Int
  deriving DecidableEq, Repr

/-- Model of one `FIND_SIGNATURE(name, offset, match_num, ...)`:
`signatures.emplace_back(name, data, sizeof(data) / sizeof(data[0]), offset, match_num)`.
The state afterwards comes with the exception that left the block, if one did. -/
def FIND_SIGNATURE (FindCode : Scanner) (mem : Bytes) (st : State) (name : String)
    (offset match_num : Nat) (data : List Int) : State × Option Exception :=
  match Signature.Signature FindCode mem name data data.length offset match_num with
  | .ok s => ({ st with signatures := st.signatures ++ [s] }, none)
  | .error e => (st, some e)

/-- A run of `FIND_SIGNATURE` lines, one after the other; an exception ends the run. -/
def find_all (FindCode : Scanner) (mem : Bytes) : List CatalogEntry → State → State × Option Exception
  | [], st => (st, none)
  | e :: rest, st =>
    match FIND_SIGNATURE FindCode mem st e.name e.offset e.match_num e.data with
    | (st1, none) => find_all FindCode mem rest st1
    | (st1, some ex) => (st1, some ex)

/-- The `FIND_SIGNATURE` lines of `find_core_signatures`, in source order. -/
def core_signatures : List CatalogEntry := [
  CatalogEntry.mk "engine_type" 4 0 [0x8D, 0x75, 0xD0, 0xB8, -1, -1, -1, -1, 0xE8, -1, -1, -1, -1, 0x83],
  CatalogEntry.mk "window_globals" 4 0 [0x8B, 0x45, 0x08, 0xA3, -1, -1, -1, -1, 0x8B, 0x4D, 0x14],
  CatalogEntry.mk "console_out" 0 0 [0x83, 0xEC, 0x10, 0x57, 0x8B, 0xF8, 0xA0, -1, -1, -1, -1, 0x84, 0xC0, 0xC7, 0x44, 0x24, 0x04, 0x00, 0x00, 0x80, 0x3F]
]

/-- The `FIND_SIGNATURE` lines of `find_engine_signatures`, in source order (the
lines that are commented out are left out). -/
def engine_signatures : List CatalogEntry := [
  CatalogEntry.mk "halo_path" 1 0 [0xBF, -1, -1, -1, -1, 0xF3, 0xAB, 0xAA, 0xE8],
  CatalogEntry.mk "resolution" 4 0 [0x75, 0x0A, 0x66, 0xA1, -1, -1, -1, -1, 0x66, 0x89, 0x42, 0x04, 0x83, 0xC4, 0x10, 0xC3],
  CatalogEntry.mk "tick_counter" 1 0 [0xA1, -1, -1, -1, -1, 0x8B, 0x50, 0x14, 0x8B, 0x48, 0x0C, 0x83, 0xC4, 0x04, 0x42, 0x41, 0x4E, 0x4F],
  CatalogEntry.mk "server_type" 0 0 [0x0F, 0xBF, 0x2D, -1, -1, -1, -1, 0xE8, -1, -1, -1, -1, 0x39, 0x1D, -1, -1, -1, -1, 0x75, 0x05],
  CatalogEntry.mk "current_gametype" 0 0 [0x83, 0x3D, -1, -1, -1, -1, 0x04, 0x8B, 0x4F, 0x6C, 0x89, 0x4C, 0x24, 0x34, 0x75],
  CatalogEntry.mk "map_index" 10 0 [0x3B, 0x05, -1, -1, -1, -1, 0x7D, -1, 0x8B, 0x0D, -1, -1, -1, -1],
  CatalogEntry.mk "on_tick" 0 0 [-1, -1, -1, -1, -1, 0xA1, -1, -1, -1, -1, 0x8B, 0x50, 0x14, 0x8B, 0x48, 0x0C],
  CatalogEntry.mk "on_map_load" 0 0 [0xE8, -1, -1, -1, -1, 0xE8, -1, -1, -1, -1, 0xA1, -1, -1, -1, -1, 0x33, 0xD2, 0x8B, 0xC8, 0x89, 0x11],
  CatalogEntry.mk "on_frame" 0 0 [-1, -1, -1, -1, -1, 0x83, 0xC4, 0x08, 0x89, 0x3D],
  CatalogEntry.mk "d3d9_call_end_scene" 0 0 [0xFF, 0x92, 0xA8, 0x00, 0x00, 0x00, 0x85, 0xC0, 0x7C, 0x0C],
  CatalogEntry.mk "d3d9_call_reset" 0 0 [0xFF, 0x52, 0x40, 0x85, 0xC0, 0x0F, 0x8C],
  CatalogEntry.mk "map_header" 2 0 [0x81, 0x3D, -1, -1, -1, -1, -1, -1, -1, -1, 0x8B, 0x3D],
  CatalogEntry.mk "map_load_path" 0 0 [-1, -1, -1, -1, -1, 0xA1, -1, -1, -1, -1, 0x83, 0xC4, -1, 0x85, 0xC0, 0xBF, 0x80, 0x00, 0x00, 0x48],
  CatalogEntry.mk "read_map_file_data" 0 0 [-1, -1, -1, -1, -1, 0xFF, 0x54, 0x24, -1, 0x85, 0xC0, 0x75, 0x29],
  CatalogEntry.mk "model_data_buffer_alloc" 0 0 [0xFF, 0x15, -1, -1, -1, -1, 0x8B, 0x4B, 0x20, 0x8B, 0x53, 0x14, 0x57, 0x8B, 0xE8],
  CatalogEntry.mk "hold_for_weapon_hud_button_name_draw" 0 0 [0xE8, -1, -1, -1, -1, 0x53, 0x68, -1, -1, -1, -1, 0x8D, 0x44, 0x24, 0x2C, 0x8D, 0x4C, 0x24, 0x38],
  CatalogEntry.mk "hud_icon_messages_tag_handle" 4 0 [0x83, 0xEC, 0x10, 0xA1, 0xA4, 0x44, 0x6B, 0x00, 0x8B, 0x88, 0xB0, 0x00, 0x00, 0x00, 0x8A, 0x46, 0x0C, 0x53, 0x55, 0x57],
  CatalogEntry.mk "draw_hud_bitmap_function" 0 0 [0x83, 0xEC, 0x28, 0x84, 0xC9, 0x56, 0x57, 0x8B, 0xF8, 0x8B, 0xF2, 0xC7, 0x44, 0x24, 0x10, 0x00, 0x00, 0x00, 0x00],
  CatalogEntry.mk "hold_for_action_message_left_quote_print" 0 0 [0xE8, -1, -1, -1, -1, 0x8D, 0x94, 0x24, 0x88, 0x00, 0x00, 0x00, 0x53, 0x52, 0x8D, 0x44, 0x24, 0x24, 0x8D, 0x4C, 0x24, 0x30],
  CatalogEntry.mk "hold_for_action_message_right_quote_print" 0 0 [0xE8, -1, -1, -1, -1, 0x83, 0xC4, 0x18, 0xE9, 0xBF, 0x01, 0x00, 0x00, 0x8B, 0x15, 0xA8, 0x44, 0x6B, 0x00, 0x8A, 0x4A, 0x01],
  CatalogEntry.mk "keyboard_input" 0 0 [0x81, 0xFE, 0xFF, 0x7F, 0x00, 0x00, 0x74, 0x32, 0x66, 0x3B, 0xF3, 0x7C, 0x27, 0x66, 0x83, 0xFE, 0x1D],
  CatalogEntry.mk "mouse_input" 0 0 [0x81, 0xFD, 0xFF, 0x7F, 0x00, 0x00, 0x74, 0x32, 0x66, 0x3B, 0xEF, 0x7C, 0x27, 0x66, 0x83, 0xFD, 0x1D],
  CatalogEntry.mk "gamepad_input" 0 0 [0x81, 0xFD, 0xFF, 0x7F, 0x00, 0x00, 0x74, 0x3D, 0x66, 0x85, 0xED, 0x7C, 0x2E, 0x66, 0x83, 0xFD, 0x1D],
  CatalogEntry.mk "get_button_name_function" 0 0 [0x53, 0x8B, 0xD9, 0x0F, 0xBF, 0x08, 0x49, 0x0F, 0x84, 0x8F, 0x00, 0x00, 0x00, 0x49],
  CatalogEntry.mk "multiplayer_pause_menu_tag_path" 1 0 [0xB8, -1, -1, -1, -1, 0x6A, 0xFF, 0x50, 0xE9, 0xA7, 0x00, 0x00, 0x00, 0x6A, 0xFF],
  CatalogEntry.mk "singleplayer_pause_menu_tag_path" 1 0 [0x68, -1, -1, -1, -1, 0xE8, -1, -1, -1, -1, 0x83, 0xC4, 0x1C, 0xC6, 0x44, 0x24, 0x12, 0x01, 0x5F, 0x5E],
  CatalogEntry.mk "widget_globals" 8 0 [0x33, 0xC0, 0xB9, 0x0D, 0x00, 0x00, 0x00, 0xBF, -1, -1, -1, -1, 0xF3, 0xAB, 0x39, 0x1D],
  CatalogEntry.mk "widget_event_globals" 8 0 [0x33, 0xC0, 0xB9, 0x43, 0x00, 0x00, 0x00, 0xBF, -1, -1, -1, -1, 0xF3, 0xAB, 0x8D, 0x44, 0x24, 0x04],
  CatalogEntry.mk "widget_cursor_globals" 4 0 [0x8B, 0xC6, 0xC6, 0x05, -1, -1, -1, -1, 0x01, 0xE8, -1, -1, -1, -1, 0x83, 0xC4, 0x04, 0xC6, 0x05, -1, -1, -1, -1, 0x00],
  CatalogEntry.mk "widget_create_function" 0 0 [0x83, 0xEC, 0x0C, 0x53, 0x8B, 0x5C, 0x24, 0x20, 0x55, 0x33, 0xC0, 0x33, 0xED, 0x66, 0x83, 0xFB, 0xFF],
  CatalogEntry.mk "widget_open_function" 0 0 [0x8B, 0x0D, -1, -1, -1, -1, 0x8B, 0x54, 0x24, 0x04, 0x53, 0x55, 0x8B, 0x6C, 0x24, 0x10, 0x8B, 0xC5, 0x25, 0xFF, 0xFF, 0x00, 0x00],
  CatalogEntry.mk "widget_close_function" 0 0 [0x83, 0xEC, 0x10, 0x53, 0x8B, 0xD8, 0x33, 0xC0, 0x66, 0x8B, 0x43, 0x08, 0x33, 0xC9, 0x66, 0x3D, 0xFF, 0xFF],
  CatalogEntry.mk "widget_find_function" 0 0 [0x8B, 0x4C, 0x24, 0x04, 0x8B, 0x11, 0x57, 0x8B, 0x7C, 0x24, 0x0C, 0x33, 0xC0, 0x3B, 0xD7, 0x75, 0x04],
  CatalogEntry.mk "widget_focus_function" 0 0 [0x55, 0x56, 0x8B, 0xF1, 0x8B, 0x48, 0x30, 0x85, 0xC9, 0x74, 0x0E, 0xEB, 0x03, 0x8D, 0x49, 0x00],
  CatalogEntry.mk "widget_list_item_index_function" 0 0 [0x8B, 0x4E, 0x30, 0x83, 0xC8, 0xFF, 0x85, 0xC9, 0x74, 0x18, 0x8B, 0x49, 0x34, 0x33, 0xD2],
  CatalogEntry.mk "widget_memory_release_function" 0 0 [0x51, 0x57, 0x8B, 0x7C, 0x24, 0x0C, 0x8A, 0x47, 0x14, 0x84, 0xC0, 0x0F, 0x85, -1, -1, -1, -1, 0x66, 0x8B, 0x47, 0x08],
  CatalogEntry.mk "get_tag_handle" 0 0 [0xA0, -1, -1, -1, -1, 0x53, 0x83, 0xCB, 0xFF, 0x84, 0xC0, 0x55, 0x8B, 0x6C, 0x24, 0x0C, 0x74, 0x5B, 0xA1, -1, -1, -1, -1, 0x8B, 0x48, 0x0C],
  CatalogEntry.mk "play_sound_function" 0 0 [0x83, 0xEC, 0x08, 0x8B, 0x0D, -1, -1, -1, -1, 0x53, 0x55, 0x8B, 0x6C, 0x24, 0x14, 0x8B, 0xC5, 0x25, 0xFF, 0xFF, 0x00, 0x00, 0xC1, 0xE0, 0x05],
  CatalogEntry.mk "get_next_sound_permutation_function" 0 0 [0x53, 0x55, 0x8B, 0x6C, 0x24, 0x0C, 0x8B, 0x95, 0x9C, 0x00, 0x00, 0x00, 0x0F, 0xBF, 0xC0, 0x8D, 0x04, 0xC0],
  CatalogEntry.mk "get_next_sound_permutation_function_play_sound_call" 0 0 [0xE8, -1, -1, -1, -1, 0x8B, 0x55, 0x08, 0x33, 0xC9, 0x89, 0x8D, 0xA8, 0x00, 0x00, 0x00, 0x89, 0x8D, 0xA4, 0x00, 0x00, 0x00],
  CatalogEntry.mk "draw_8_bit_text" 0 0 [0x55, 0x8B, 0xEC, 0x83, 0xE4, 0xF8, 0x81, 0xEC, 0xA4, 0x00, 0x00, 0x00, 0x53, 0x8B, 0xD8, 0xA0, -1, -1, -1, -1, 0x84, 0xC0, 0x56, 0x57, 0x0F, 0x84, 0xDA, 0x01, 0x00, 0x00],
  CatalogEntry.mk "draw_16_bit_text" 0 0 [0x55, 0x8B, 0xEC, 0x83, 0xE4, 0xF8, 0x81, 0xEC, 0xA4, 0x00, 0x00, 0x00, 0x53, 0x8B, 0xD8, 0xA0, -1, -1, -1, -1, 0x84, 0xC0, 0x56, 0x57, 0x8B, 0xF9, 0x0F, 0x84, 0xD8, 0x01, 0x00, 0x00],
  CatalogEntry.mk "text_hook" 0 0 [0x83, 0xEC, 0x48, 0xA0, -1, -1, -1, -1, 0x53, 0x33, 0xDB, 0x3C, 0x01],
  CatalogEntry.mk "text_font_data" 13 0 [0xC7, 0x44, 0x24, 0x0C, 0xEB, 0xEA, 0xEA, 0x3E, 0x8B, 0x4C, 0x24, 0x0C, 0xA3, -1, -1, -1, -1, 0x8B, 0xC2],
  CatalogEntry.mk "read_map_file_data_call_1" 0 0 [0xE8, -1, -1, -1, -1, 0x83, 0xC4, 0x0C, 0x8D, 0x74, 0x24, 0x13, 0xE8, -1, -1, -1, -1, 0x8A, 0x44, 0x24, 0x13],
  CatalogEntry.mk "read_map_file_data_call_2" 9 0 [0xBF, 0xD0, 0x43, 0x44, 0x00, 0xC6, 0x46, 0x1E, 0x01, 0xE8, -1, -1, -1, -1, 0x83, 0xC4, 0x0C, 0xE9, -1, -1, -1, -1],
  CatalogEntry.mk "enqueue_sound_function" 0 0 [0x0F, 0xBF, 0xC1, 0x56, 0x8D, 0x34, 0x40, 0x8B, 0x04, 0xF5, -1, -1, -1, -1, 0x85, 0xC0],
  CatalogEntry.mk "execute_console_command_function" 0 0 [0x8A, 0x07, 0x81, 0xEC, 0x00, 0x05, 0x00, 0x00, 0x3C, 0x3B, 0x74, 0x0E],
  CatalogEntry.mk "console_unknown_command_message_print_call" 0 0 [0xE8, -1, -1, -1, -1, 0x83, 0xC4, 0x0C, 0x5E, 0x8A, 0xC3, 0x5B, 0x81, 0xC4, 0x00, 0x05, 0x00, 0x00],
  CatalogEntry.mk "camera_coord" 2 0 [0xD9, 0x05, -1, -1, -1, -1, 0x83, 0xEC, 0x18, 0xDD, 0x5C, 0x24, 0x10],
  CatalogEntry.mk "camera_type" 2 0 [0x81, 0xC1, -1, -1, -1, -1, 0x8B, 0x41, 0x08, 0x3D, -1, -1, -1, -1, 0x75, 0x1D, 0xD9, 0x05],
  CatalogEntry.mk "chat_out" 0 0 [0x83, 0xEC, 0x10, 0x8A, 0x4C, 0x24, 0x14, 0x55, 0x6A, 0x00, 0x6A, 0x01, 0x6A, 0x00, 0x88, 0x4C, 0x24, 0x18],
  CatalogEntry.mk "antenna_table_address" 2 0 [0x8B, 0x15, -1, -1, -1, -1, 0x8B, 0xC7, 0x25, 0xFF, 0xFF, 0x00, 0x00, 0xC1, 0xE0, 0x05, 0x55, 0x8B, 0x6C, 0x08, 0x14, 0x89, 0x6C, 0x24, 0x28],
  CatalogEntry.mk "object_table_address" 2 0 [0x8B, 0x0D, -1, -1, -1, -1, 0x8B, 0x51, 0x34, 0x25, 0xFF, 0xFF, 0x00, 0x00, 0x8D],
  CatalogEntry.mk "delete_object_function" 0 0 [0x8B, 0xF8, 0x25, 0xFF, 0xFF, 0x00, 0x00, 0x8D, 0x04, 0x40, 0x8B, 0x44, 0x82, 0x08, 0x8B, 0x40, 0x04],
  CatalogEntry.mk "create_object_function" 0 0 [0x56, 0x83, 0xCE, 0xFF, 0x85, 0xC9, 0x57],
  CatalogEntry.mk "create_object_query_function" 0 0 [0x53, 0x8B, 0x5C, 0x24, 0x0C, 0x56, 0x8B, 0xF0, 0x33, 0xC0],
  CatalogEntry.mk "apply_damage_function" 0 0 [0x81, 0xEC, 0x94, 0x00, 0x00, 0x00, 0x8B, 0x84, 0x24, 0x9C, 0x00, 0x00, 0x00, 0x25, 0xFF, 0xFF, 0x00, 0x00],
  CatalogEntry.mk "decal_table_address" 1 0 [0xA1, -1, -1, -1, -1, 0x8A, 0x48, 0x24, 0x83, 0xEC, 0x10, 0x84, 0xC9, 0x74, 0x48, 0x89, 0x04, 0x24, 0x57, 0x35, 0x72, 0x65, 0x74, 0x69],
  CatalogEntry.mk "effect_table_address" 1 0 [0xA1, -1, -1, -1, -1, 0x8B, 0x15, -1, -1, -1, -1, 0x53, 0x8B, 0x5C, 0x24, 0x24, 0x81, 0xE3, 0xFF, 0xFF, 0x00, 0x00],
  CatalogEntry.mk "flag_table_address" 2 0 [0x8B, 0x3D, -1, -1, -1, -1, 0x83, 0xC4, 0x0C, 0x8D, 0x4E, 0x01, 0x83, 0xCB, 0xFF, 0x66, 0x85, 0xC9, 0x7C, 0x31],
  CatalogEntry.mk "controls_struct_address" 11 0 [0x0F, 0xBF, 0xCE, 0x8A, 0x14, 0x01, 0x0F, 0xB6, 0xC2, 0x88, 0x85, -1, -1, -1, -1],
  CatalogEntry.mk "keyboard_keys_struct_address" 1 0 [0xB8, -1, -1, -1, -1, 0xBA, 0x6D, 0x00, 0x00, 0x00, 0x8D, 0x49, 0x00, 0x80, -1, 0x6D, 0x01, 0x75, 0x05],
  CatalogEntry.mk "light_table_address" 2 0 [0x8B, 0x0D, -1, -1, -1, -1, 0x8B, 0x51, 0x34, 0x56, 0x8B, 0xF0, 0x81, 0xE6, 0xFF, 0xFF, 0x00, 0x00, 0x6B, 0xF6, 0x7C],
  CatalogEntry.mk "particle_table_address" 2 0 [0x8B, 0x2D, -1, -1, -1, -1, 0x83, 0xCA, 0xFF, 0x8B, 0xFD, 0xE8, -1, -1, -1, -1, 0x8B, 0xF8, 0x83, 0xFF, 0xFF, 0x0F, 0x84, 0x10, 0x06, 0x00, 0x00],
  CatalogEntry.mk "game_paused_flag_address" 2 0 [0x8B, 0x15, -1, -1, -1, -1, 0x8A, 0x42, 0x02, 0x84, 0xC0, 0x75, 0x22, 0x8B, 0x0D],
  CatalogEntry.mk "player_handle_address" 2 0 [0x8B, 0x0D, -1, -1, -1, -1, 0xC1, 0xF8, 0x05, 0x23, 0x54, 0x81, 0x18],
  CatalogEntry.mk "player_table_address" 1 0 [0xA1, -1, -1, -1, -1, 0x89, 0x44, 0x24, 0x48, 0x35],
  CatalogEntry.mk "server_info_player_list_offset" 4 0 [0x66, 0x0F, 0xBE, 0x8A, -1, -1, -1, -1, 0x66, 0x39, 0x8A],
  CatalogEntry.mk "server_info_host" 1 0 [0xBF, -1, -1, -1, -1, 0xF3, 0xAB, 0xA1, -1, -1, -1, -1, 0xBA, -1, -1, -1, -1, 0xC7, 0x40, 0x08, -1, -1, -1, -1, 0xE8, -1, -1, -1, -1, 0x66, 0x8B, 0x0D, -1, -1, -1, -1, 0x66, 0x89, 0x0D, -1, -1, -1, -1, 0xB9, 0xFF, 0xFF, 0xFF, 0xFF],
  CatalogEntry.mk "server_info_client" 1 0 [0xBA, -1, -1, -1, -1, 0xE8, -1, -1, -1, -1, 0x66, 0xA1, -1, -1, -1, -1, 0x66, 0x25, 0xF9, 0xFF],
  CatalogEntry.mk "camera_data_read" 0 0 [-1, -1, -1, -1, -1, 0x8B, 0x45, 0xEC, 0x8B, 0x4D, 0xF0, 0x40, 0x81, 0xC6],
  CatalogEntry.mk "server_connect_function_call" 0 0 [0xE8, -1, -1, -1, -1, 0x83, 0xC4, 0x14, 0x84, 0xC0, 0x74, 0x12, 0xB8, 0x01, 0x00, 0x00, 0x00],
  CatalogEntry.mk "apply_damage_function" 0 0 [0x81, 0xEC, 0x94, 0x00, 0x00, 0x00, 0x8B, 0x84, 0x24, 0x9C, 0x00, 0x00, 0x00, 0x25, 0xFF, 0xFF, 0x00, 0x00],
  CatalogEntry.mk "rcon_message_function_call" 0 0 [-1, -1, -1, -1, -1, 0x83, 0xC4, 0x08, 0x83, 0xC4, 0x58, 0xC3, 0x8B, 0xC2, 0xE8, -1, -1, -1, -1, 0x83, 0xC4, 0x58, 0xC3],
  CatalogEntry.mk "console_tab_completion_function_call" 0 0 [-1, -1, -1, -1, -1, 0x83, 0xC4, 0x08, 0x8B, 0xE8, 0x66, 0x85, 0xED],
  CatalogEntry.mk "command_list_address_custom_edition" 1 0 [0xBB, -1, -1, -1, -1, 0xBD, -1, -1, -1, -1, 0x8B, 0xFF, 0x8B, 0x33, 0x8A, -1, 0x18],
  CatalogEntry.mk "unit_enter_vehicle_function" 0 0 [0x55, 0x8B, 0xEC, 0x83, 0xE4, 0xF8, 0x81, 0xEC, 0xDC, 0x00, 0x00, 0x00, 0x53, 0x56, 0x8B, 0x75, 0x08, 0x57, 0x83, 0xCF, 0xFF, 0x3B, 0xF7, 0x0F, 0x84, 0x20, 0x05, 0x00, 0x00],
  CatalogEntry.mk "play_bik_video_function" 0 0 [0x83, 0xEC, 0x68, 0xA1, -1, -1, -1, -1, 0x53, 0x33, 0xDB, 0x3B, 0xC3, 0x89, 0x5C, 0x24, 0x0C],
  CatalogEntry.mk "play_bik_video_resolution_set" 0 0 [0xFF, 0x91, 0x90, 0x00, 0x00, 0x00, 0x85, 0xC0, 0x0F, 0x85, -1, -1, -1, -1, 0xA1, -1, -1, -1, -1, 0x8B, 0x08]
]

/-- Model of `find_core_signatures()`. -/
def find_core_signatures (FindCode : Scanner) (mem : Bytes) (st : State) : State × Option Exception :=
  find_all FindCode mem core_signatures st

/-- Model of `find_engine_signatures()`; the console command it registers at its end
is outside the state modelled here. -/
def find_engine_signatures (FindCode : Scanner) (mem : Bytes) (st : State) : State × Option Exception :=
  find_all FindCode mem engine_signatures st

/-- Model of `find_signatures()`. -/
def find_signatures (FindCode : Scanner) (mem : Bytes) (st : State) : State × Option Exception :=
  match find_core_signatures FindCode mem st with
  | (st1, none) => find_engine_signatures FindCode mem st1
  | (st1, some ex) => (st1, some ex)

/-! ## Sequences of patch calls on a signature -/

/-- One call of a patch primitive made on the bytes a signature points at:
`overwrite(address, bytes, length)`, `write_code(address, data, length)`,
`fill_with_nops(address, length)` or the signature's own `restore()`. -/
inductive PatchCall where
  | overwrite (address : Nat) (bytes : List Nat)
  | write_code (address : Nat) (data : List Nat)
  | fill_with_nops (address length : Nat)
  | restore
  deriving DecidableEq, Repr

/-- The effect of one patch call. -/
def PatchCall.run (s : Signature) (m : Machine) : PatchCall → Machine
  | .overwrite address bytes =>
    Balltze.Memory.overwrite m address (fun i => bytes.getD i 0) bytes.length
  | .write_code address data =>
    Balltze.Memory.write_code m address (fun i => data.getD i 0) data.length
  | .fill_with_nops address length => Balltze.Memory.fill_with_nops m address length
  | .restore => s.restore m

/-- The effect of a sequence of patch calls, first call first. -/
def run_calls (s : Signature) : List PatchCall → Machine → Machine
  | [], m => m
  | c :: rest, m => run_calls s rest (c.run s m)

/-- The call touches only bytes of the captured span
`[data(), data() + m_original_data.size())` of the signature. -/
def PatchCall.inside (s : Signature) : PatchCall → Prop
  | .overwrite address bytes =>
    s.data ≤ address ∧ address + bytes.length ≤ s.data + s.m_original_data.length
  | .write_code address data =>
    s.data ≤ address ∧ address + data.length ≤ s.data + s.m_original_data.length
  | .fill_with_nops address length =>
    s.data ≤ address ∧ address + length ≤ s.data + s.m_original_data.length
  | .restore => True

instance (s : Signature) (c : PatchCall) : Decidable (c.inside s) := by
  cases c <;> unfold PatchCall.inside <;> infer_instance

/-! ## Relative offsets -/

/-- A pointer seen as a `std::uint32_t` (`reinterpret_cast<std::uint32_t>`), and the
result of unsigned 32-bit arithmetic: the value modulo `2^32`. -/
def to_uint32 (x : Nat) : Nat := x % 4294967296

/-- The conversion of a `std::uint32_t` to `std::int32_t`: the same 32 bits read as a
two's complement number. -/
def to_int32 (x : Nat) : Int :=
  if x % 4294967296 < 2147483648 then ((x % 4294967296 : Nat) : Int)
  else ((x % 4294967296 : Nat) : Int) - 4294967296

/-- Model of `calculate_32bit_offset(const void *origin, const void *destination)`:
`std::int32_t offset = (std::uint32_t)destination - (std::uint32_t)origin`, an
unsigned subtraction that wraps. -/
def calculate_32bit_offset (origin destination : Nat) : Int :=
  let offset := to_int32 (to_uint32 (to_uint32 destination + 4294967296 - to_uint32 origin))
  offset

/-- The `std::uint32_t` stored at an address of the little-endian host: `*offset`. -/
def read_uint32 (mem : Bytes) (address : Nat) : Nat :=
  mem address % 256 + 256 * (mem (address + 1) % 256) + 65536 * (mem (address + 2) % 256)
    + 16777216 * (mem (address + 3) % 256)

/-- Model of `follow_32bit_offset(std::uint32_t *offset)`:
`offset_end = (std::uint32_t)(offset + 1)`, four bytes after `offset`, and
`destination = *offset + offset_end` in unsigned 32-bit arithmetic. -/
def follow_32bit_offset (mem : Bytes) (offset : Nat) : Nat :=
  let offset_end := to_uint32 (offset + 4)
  let destination := to_uint32 (read_uint32 mem offset + offset_end)
  destination

/-- Storing a 32-bit value at an address of the little-endian host, as
`*(std::int32_t *)address = value` does: the four bytes of the value modulo `2^32`. -/
def store_int32 (mem : Bytes) (address : Nat) (value : Int) : Bytes :=
  let bits := (value % 4294967296).toNat
  store (store (store (store mem address (bits % 256)) (address + 1) (bits / 256 % 256))
    (address + 2) (bits / 65536 % 256)) (address + 3) (bits / 16777216 % 256)

/-! ## The pattern scanner -/

/-- Modelled from the spec: the comparison the scanner `FindCode` of `codefinder.hpp`
(not among the sources) makes at one candidate address, spec 4.1: "compare every
pattern element against the corresponding region byte, skipping wildcard positions;
a starting offset qualifies if all literal positions match". -/
def matches_at (mem : Bytes) (address : Nat) : List Int → Bool
  | [] => true
  | element :: rest =>
    if element = -1 then matches_at mem (address + 1) rest
    else if (mem address : Int) = element then matches_at mem (address + 1) rest
    else false

/-- Modelled from the spec: the scan of the scanner `FindCode` of `codefinder.hpp`
(not among the sources), spec 4.1: candidate offsets in ascending order, "maintain a
running count of qualifying offsets; return the address for the occurrence whose
count equals `occurrence_index`, short-circuiting once found". `candidates` offsets
are left to try from `offset` on, `count` qualifying offsets were seen before. -/
def scan (mem : Bytes) (region_base : Nat) (pattern : List Int) (occurrence_index : Nat) :
    Nat → Nat → Nat → Option Nat
  | 0, _, _ => none
  | candidates + 1, offset, count =>
    if matches_at mem (region_base + offset) pattern then
      if count = occurrence_index then some (region_base + offset)
      else scan mem region_base pattern occurrence_index candidates (offset + 1) (count + 1)
    else scan mem region_base pattern occurrence_index candidates (offset + 1) count

/-- Modelled from the spec: the contract
`find(region_base, region_length, pattern, occurrence_index) -> address | not_found`
of the scanner `FindCode` of `codefinder.hpp` (not among the sources), spec 4.1: the
candidate offsets are `0 .. region_length - pattern.length`; a pattern longer than
the region has no candidate. -/
def find (mem : Bytes) (region_base region_length : Nat) (pattern : List Int)
    (occurrence_index : Nat) : Option Nat :=
  if pattern.length ≤ region_length then
    scan mem region_base pattern occurrence_index (region_length - pattern.length + 1) 0 0
  else none

/-- Modelled from the spec: the call `FindCode(GetModuleHandle(0), signature, lenght,
match_num)` as the constructor makes it, on a module image at `region_base` of
`region_length` bytes: the scanner of spec 4.1 on the first `lenght` elements of the
array, the null pointer standing for "not found". -/
def FindCode (region_base region_length : Nat) : Scanner :=
  fun mem signature lenght match_num =>
    match find mem region_base region_length (signature.take lenght) match_num with
    | some address => address
    | none => 0

/-! ## Vocabulary of the statements -/

/-- The signature the constructor builds for a catalog entry whose pattern the
scanner finds, the offset of the entry being within its pattern. -/
def resolved (FindCode : Scanner) (mem : Bytes) (e : CatalogEntry) : Signature :=
  { m_name := e.name,
    m_data := FindCode mem e.data e.data.length e.match_num + e.offset,
    m_original_data :=
      read_range mem (FindCode mem e.data e.data.length e.match_num + e.offset)
        (FindCode mem e.data e.data.length e.match_num + e.data.length) }

/-- The whole catalog in the order `find_signatures` goes through it. -/
def catalog : List CatalogEntry := core_signatures ++ engine_signatures

/-- The pattern of the catalog entry `console_out`. -/
def console_out_pattern : List Int :=
  [0x83, 0xEC, 0x10, 0x57, 0x8B, 0xF8, 0xA0, -1, -1, -1, -1, 0x84, 0xC0, 0xC7, 0x44, 0x24,
    0x04, 0x00, 0x00, 0x80, 0x3F]

/-- A scanner for a module image that holds every pattern but that of `console_out`:
it reports the address `0x401000` for all the others. -/
def scanner_without_console_out : Scanner :=
  fun _ signature _ _ => if signature = console_out_pattern then 0 else 0x401000

/-- Every literal element of the pattern equals the region byte under it when the
pattern is laid at the offset; wildcard positions are not constrained. -/
def qualifies (mem : Bytes) (region_base : Nat) (pattern : List Int) (offset : Nat) : Prop :=
  ∀ i, i < pattern.length →
    pattern.getD i 0 = -1 ∨ (mem (region_base + offset + i) : Int) = pattern.getD i 0

instance (mem : Bytes) (region_base : Nat) (pattern : List Int) (offset : Nat) :
    Decidable (qualifies mem region_base pattern offset) := by
  unfold qualifies; infer_instance

/-- The offsets of a region at which the pattern fits and qualifies, in ascending order. -/
def qualifying_offsets (mem : Bytes) (region_base region_length : Nat) (pattern : List Int) :
    List Nat :=
  (List.range (region_length - pattern.length + 1)).filter
    (fun offset => decide (qualifies mem region_base pattern offset))

/-- The region of the end-to-end scenario: the eight bytes
`11 22 33 44 11 22 33 44` at `region_base`, zero elsewhere. -/
def scenario_memory (region_base : Nat) : Bytes :=
  fun a =>
    if region_base ≤ a ∧ a < region_base + 8 then
      [0x11, 0x22, 0x33, 0x44, 0x11, 0x22, 0x33, 0x44].getD (a - region_base) 0
    else 0

/-- The hexadecimal digits, in the order of their values. -/
def hex_digits_lower : List Char := "0123456789abcdef".toList

/-- The hexadecimal digits with capital letters, in the order of their values. -/
def hex_digits_upper : List Char := "0123456789ABCDEF".toList

/-- The character is a hexadecimal digit. -/
def is_hex_digit (c : Char) : Prop := c ∈ hex_digits_lower ∨ c ∈ hex_digits_upper

instance (c : Char) : Decidable (is_hex_digit c) := by
  unfold is_hex_digit; infer_instance

/-- The value of a hexadecimal digit: its place among the digits. -/
def hex_digit_value (c : Char) : Nat :=
  if c ∈ hex_digits_lower then hex_digits_lower.indexOf c else hex_digits_upper.indexOf c

/-- A two-character token of a textual pattern is `??` or two hexadecimal digits. -/
def valid_token (t : Char × Char) : Prop :=
  (t.1 = '?' ∧ t.2 = '?') ∨ (is_hex_digit t.1 ∧ is_hex_digit t.2)

instance (t : Char × Char) : Decidable (valid_token t) := by
  unfold valid_token; infer_instance

/-- The pattern element a valid token stands for: the wildcard `-1` for `??`, else the
hexadecimal value of its two digits. -/
def token_element (t : Char × Char) : Int :=
  if t.1 = '?' ∧ t.2 = '?' then -1
  else (16 * hex_digit_value t.1 + hex_digit_value t.2 : Nat)

/-- The text made of the given two-character tokens, in order. -/
def token_text : List (Char × Char) → List Char
  | [] => []
  | t :: rest => t.1 :: t.2 :: token_text rest

/-! # Theorems -/

/-! ## write_code -/

/-- A promoted `std::uint16_t` is never `-1`: the test `data[i] != -1` always holds. -/
theorem promote_uint16_ne_neg_one (x : Nat) : promote_uint16 x ≠ -1 := by
  unfold promote_uint16
  intro h
  have h0 : (0 : Int) ≤ Int.ofNat (x % 65536) := Int.ofNat_nonneg _
  rw [h] at h0
  exact absurd h0 (by decide)

/-- The copy loop of `write_code` stores the low byte of every element, sentinel or
not, and leaves every other address alone. -/
theorem write_code_copy_apply (pointer : Nat) (data : Nat → Nat) (n : Nat) (mem : Bytes)
    (a : Nat) :
    write_code_copy pointer data n mem a =
      if pointer ≤ a ∧ a < pointer + n then data (a - pointer) % 256 else mem a := by
  induction n with
  | zero =>
    have h0 : ¬ (pointer ≤ a ∧ a < pointer + 0) := by omega
    rw [if_neg h0]
    rfl
  | succ i ih =>
    simp only [write_code_copy, if_pos (promote_uint16_ne_neg_one (data i)), store, to_uint8]
    by_cases h : a = pointer + i
    · subst h
      have h1 : pointer ≤ pointer + i ∧ pointer + i < pointer + (i + 1) := by omega
      rw [if_pos rfl, if_pos h1]
      have : pointer + i - pointer = i := by omega
      rw [this]
      omega
    · rw [if_neg h, ih]
      by_cases h2 : pointer ≤ a ∧ a < pointer + i
      · have h3 : pointer ≤ a ∧ a < pointer + (i + 1) := by omega
        rw [if_pos h2, if_pos h3]
      · have h3 : ¬ (pointer ≤ a ∧ a < pointer + (i + 1)) := by omega
        rw [if_neg h2, if_neg h3]

/-- The protection calls of `write_code` leave the bytes to the copy loop. -/
theorem write_code_mem (m : Machine) (pointer : Nat) (data : Nat → Nat) (length : Nat) :
    (write_code m pointer data length).mem = write_code_copy pointer data length m.mem := by
  unfold write_code VirtualProtect
  dsimp only
  split <;> rfl

/-- C1 (code defect): `write_code` called on a destination byte `0x00` with the one
source element `0xFFFF`, the skip sentinel, stores `0xFF` there: the skip position is
written, it does not keep the byte it had before the call. -/
theorem write_code_writes_skip_position :
    (fun _ => 0xFFFF : Nat → Nat) 0 = 0xFFFF ∧
    (Machine.mk (fun _ => 0x00) (fun _ => 0x20)).mem (0x401000 + 0) = 0x00 ∧
    (write_code (Machine.mk (fun _ => 0x00) (fun _ => 0x20)) 0x401000 (fun _ => 0xFFFF) 1).mem
      (0x401000 + 0) = 0xFF := by
  refine ⟨rfl, rfl, ?_⟩
  rw [write_code_mem, write_code_copy_apply]
  decide

/-- C2: when no element of `data[0..length)` is the skip sentinel, `write_code` leaves
the byte `data[i] mod 256` at `pointer + i` for every `i < length` and does not
change any byte outside `[pointer, pointer + length)`. -/
theorem write_code_without_skip (m : Machine) (pointer : Nat) (data : Nat → Nat) (length : Nat)
    (_hdata : ∀ i, i < length → data i % 65536 ≠ 0xFFFF) :
    (∀ i, i < length → (write_code m pointer data length).mem (pointer + i) = data i % 256) ∧
    (∀ a, ¬ (pointer ≤ a ∧ a < pointer + length) →
      (write_code m pointer data length).mem a = m.mem a) := by
  constructor
  · intro i hi
    rw [write_code_mem, write_code_copy_apply]
    have h1 : pointer ≤ pointer + i ∧ pointer + i < pointer + length := by omega
    have h2 : pointer + i - pointer = i := by omega
    rw [if_pos h1, h2]
  · intro a ha
    rw [write_code_mem, write_code_copy_apply, if_neg ha]

/-- Witness of C2: two literal bytes written at `0x401000`. -/
theorem write_code_without_skip_witness :
    (∀ i, i < 2 → (fun i => 0x90 + i : Nat → Nat) i % 65536 ≠ 0xFFFF) ∧
    (∀ i, i < 2 →
      (write_code (Machine.mk (fun _ => 0) (fun _ => 0x20)) 0x401000 (fun i => 0x90 + i) 2).mem
        (0x401000 + i) = (fun i => 0x90 + i : Nat → Nat) i % 256) ∧
    (∀ a, ¬ (0x401000 ≤ a ∧ a < 0x401000 + 2) →
      (write_code (Machine.mk (fun _ => 0) (fun _ => 0x20)) 0x401000 (fun i => 0x90 + i) 2).mem a
        = (Machine.mk (fun _ => 0) (fun _ => 0x20)).mem a) :=
  have h : ∀ i, i < 2 → (fun i => 0x90 + i : Nat → Nat) i % 65536 ≠ 0xFFFF := by
    intro i hi; dsimp only; omega
  ⟨h, write_code_without_skip _ 0x401000 (fun i => 0x90 + i) 2 h⟩

/-! ## overwrite, restore -/

/-- The copy of `overwrite` stores `data[i]` at `pointer + i` for `i < n` and leaves
every other address alone. -/
theorem overwrite_copy_apply (pointer : Nat) (data : Nat → Nat) (n : Nat) (mem : Bytes)
    (a : Nat) :
    overwrite_copy pointer data n mem a =
      if pointer ≤ a ∧ a < pointer + n then data (a - pointer) else mem a := by
  induction n with
  | zero =>
    have h0 : ¬ (pointer ≤ a ∧ a < pointer + 0) := by omega
    rw [if_neg h0]
    rfl
  | succ i ih =>
    simp only [overwrite_copy, store]
    by_cases h : a = pointer + i
    · subst h
      have h1 : pointer ≤ pointer + i ∧ pointer + i < pointer + (i + 1) := by omega
      have h2 : pointer + i - pointer = i := by omega
      rw [if_pos rfl, if_pos h1, h2]
    · rw [if_neg h, ih]
      by_cases h2 : pointer ≤ a ∧ a < pointer + i
      · have h3 : pointer ≤ a ∧ a < pointer + (i + 1) := by omega
        rw [if_pos h2, if_pos h3]
      · have h3 : ¬ (pointer ≤ a ∧ a < pointer + (i + 1)) := by omega
        rw [if_neg h2, if_neg h3]

/-- The bytes after `overwrite` are those of its copy. -/
theorem overwrite_mem (m : Machine) (pointer : Nat) (data : Nat → Nat) (length : Nat) :
    (overwrite m pointer data length).mem = overwrite_copy pointer data length m.mem := by
  unfold overwrite VirtualProtect
  dsimp only
  split <;> rfl

/-- The page protections after `overwrite`: the pages of the range carry the
protection the first page had before the call. -/
theorem overwrite_prot (m : Machine) (pointer : Nat) (data : Nat → Nat) (length : Nat) :
    (overwrite m pointer data length).prot =
      fun page => if in_pages pointer length page then m.prot (pointer / PAGE_SIZE)
        else m.prot page := by
  unfold overwrite VirtualProtect
  dsimp only
  split
  · funext page
    dsimp only
    by_cases h : in_pages pointer length page
    · simp only [if_pos h]
    · simp only [if_neg h]
  · rename_i h
    have h1 : PAGE_EXECUTE_READWRITE = m.prot (pointer / PAGE_SIZE) := by
      by_contra hne
      exact h hne
    funext page
    dsimp only
    rw [← h1]

/-- Two machines with the same bytes and the same page protections are equal. -/
theorem Machine.eq_of (a b : Machine) (hmem : a.mem = b.mem) (hprot : a.prot = b.prot) :
    a = b := by
  cases a; cases b
  simp only [Machine.mk.injEq]
  exact ⟨hmem, hprot⟩

/-- An `overwrite` done twice with the same arguments is the same as done once. -/
theorem overwrite_twice (m : Machine) (pointer : Nat) (data : Nat → Nat) (length : Nat) :
    overwrite (overwrite m pointer data length) pointer data length =
      overwrite m pointer data length := by
  apply Machine.eq_of
  · funext a
    rw [overwrite_mem, overwrite_copy_apply, overwrite_mem, overwrite_copy_apply]
    by_cases h : pointer ≤ a ∧ a < pointer + length
    · simp only [if_pos h]
    · simp only [if_neg h]
  · rw [overwrite_prot, overwrite_prot]
    funext page
    dsimp only
    by_cases h : in_pages pointer length page
    · have h1 : in_pages pointer length (pointer / PAGE_SIZE) := by
        unfold in_pages at h ⊢
        refine ⟨h.1, Nat.le_refl _, ?_⟩
        apply Nat.div_le_div_right
        omega
      simp only [if_pos h, if_pos h1]
    · simp only [if_neg h]

/-- The bytes of a range read back as a list have the length of the range. -/
theorem read_range_length (mem : Bytes) (first last : Nat) :
    (read_range mem first last).length = last - first := by
  simp [read_range]

/-- After `restore()` the span the signature captured holds the captured bytes. -/
theorem restore_span (s : Signature) (m : Machine) :
    read_range (s.restore m).mem s.data (s.data + s.m_original_data.length) =
      s.m_original_data := by
  apply List.ext_getElem
  · rw [read_range_length]; omega
  · intro i h1 h2
    simp only [read_range, List.getElem_map, List.getElem_range]
    unfold Signature.restore Signature.data
    rw [overwrite_mem, overwrite_copy_apply]
    have h3 : s.m_data ≤ s.m_data + i ∧ s.m_data + i < s.m_data + s.m_original_data.length := by
      omega
    have h4 : s.m_data + i - s.m_data = i := by omega
    rw [if_pos h3, h4]
    simp [List.getD, h2]

/-- The constructor when the scanner finds the pattern and the offset does not exceed
the pattern length. -/
theorem constructor_found (FindCode : Scanner) (mem : Bytes) (name : String)
    (signature : List Int) (lenght offset match_num : Nat)
    (h : FindCode mem signature lenght match_num ≠ 0) (hoff : offset ≤ lenght) :
    Signature.Signature FindCode mem name signature lenght offset match_num =
      .ok { m_name := name,
            m_data := FindCode mem signature lenght match_num + offset,
            m_original_data := read_range mem (FindCode mem signature lenght match_num + offset)
              (FindCode mem signature lenght match_num + lenght) } := by
  unfold Signature.Signature
  dsimp only
  rw [if_pos h, if_pos hoff]

/-- The constructor when the scanner does not find the pattern. -/
theorem constructor_not_found (FindCode : Scanner) (mem : Bytes) (name : String)
    (signature : List Int) (lenght offset match_num : Nat)
    (h : FindCode mem signature lenght match_num = 0) :
    Signature.Signature FindCode mem name signature lenght offset match_num =
      .error (.runtime_error ("Could not find signature " ++ name)) := by
  unfold Signature.Signature
  dsimp only
  rw [if_neg (not_not.mpr h)]

/-- The constructor when the scanner finds the pattern and the offset exceeds the
pattern length: the reversed range makes the insert throw. -/
theorem constructor_reversed (FindCode : Scanner) (mem : Bytes) (name : String)
    (signature : List Int) (lenght offset match_num : Nat)
    (h : FindCode mem signature lenght match_num ≠ 0) (hoff : ¬ offset ≤ lenght) :
    Signature.Signature FindCode mem name signature lenght offset match_num =
      .error (.length_error "vector::_M_range_insert") := by
  unfold Signature.Signature
  dsimp only
  rw [if_pos h, if_neg hoff]

/-- A construction that succeeds had an offset within the pattern length. -/
theorem constructor_ok_offset (FindCode : Scanner) (mem : Bytes) (name : String)
    (signature : List Int) (lenght offset match_num : Nat) (s : Signature)
    (hs : Signature.Signature FindCode mem name signature lenght offset match_num = .ok s) :
    offset ≤ lenght := by
  by_cases h : FindCode mem signature lenght match_num ≠ 0
  · by_cases hoff : offset ≤ lenght
    · exact hoff
    · rw [constructor_reversed _ _ _ _ _ _ _ h hoff] at hs
      cases hs
  · rw [constructor_not_found _ _ _ _ _ _ _ (not_not.mp h)] at hs
    cases hs

/-- What the constructor stores when the scanner finds the pattern. -/
theorem constructor_ok (FindCode : Scanner) (mem : Bytes) (name : String)
    (signature : List Int) (lenght offset match_num : Nat) (s : Signature)
    (hs : Signature.Signature FindCode mem name signature lenght offset match_num = .ok s) :
    FindCode mem signature lenght match_num ≠ 0 ∧
    s = { m_name := name,
          m_data := FindCode mem signature lenght match_num + offset,
          m_original_data := read_range mem (FindCode mem signature lenght match_num + offset)
            (FindCode mem signature lenght match_num + lenght) } := by
  have hoff := constructor_ok_offset _ _ _ _ _ _ _ _ hs
  by_cases h : FindCode mem signature lenght match_num ≠ 0
  · rw [constructor_found _ _ _ _ _ _ _ h hoff] at hs
    injection hs with hs
    exact ⟨h, hs.symm⟩
  · rw [constructor_not_found _ _ _ _ _ _ _ (not_not.mp h)] at hs
    cases hs

/-- The captured bytes are the bytes the span held in the memory the signature was
resolved in. -/
theorem captured_eq_span (FindCode : Scanner) (mem : Bytes) (name : String)
    (signature : List Int) (lenght offset match_num : Nat) (s : Signature)
    (hs : Signature.Signature FindCode mem name signature lenght offset match_num = .ok s) :
    s.m_original_data = read_range mem s.data (s.data + s.m_original_data.length) := by
  obtain ⟨_, h⟩ := constructor_ok _ _ _ _ _ _ _ _ hs
  subst h
  simp only [Signature.data, read_range_length]
  simp only [read_range]
  congr 2
  omega

/-- C3: for a signature resolved in a machine and any sequence of `overwrite`,
`write_code`, `fill_with_nops` and `restore` calls that stay inside its captured span, a final
`restore()` leaves in the span exactly the bytes captured at resolution time, which
are the bytes the span held then, and one more `restore()` changes nothing. -/
theorem restore_round_trip (FindCode : Scanner) (m0 : Machine) (name : String)
    (signature : List Int) (lenght offset match_num : Nat) (s : Signature)
    (hs : Signature.Signature FindCode m0.mem name signature lenght offset match_num = .ok s)
    (calls : List PatchCall) (_hin : ∀ c ∈ calls, c.inside s) :
    read_range (s.restore (run_calls s calls m0)).mem s.data
        (s.data + s.m_original_data.length) = s.m_original_data ∧
    s.m_original_data = read_range m0.mem s.data (s.data + s.m_original_data.length) ∧
    s.restore (s.restore (run_calls s calls m0)) = s.restore (run_calls s calls m0) :=
  ⟨restore_span s _, captured_eq_span _ _ _ _ _ _ _ _ hs, overwrite_twice _ _ _ _⟩

/-- Witness of C3: a signature resolved at `0x401000` with offset 1 over a three
element pattern, patched twice, restored, patched again. -/
theorem restore_round_trip_witness :
    Signature.Signature (fun _ _ _ _ => 0x401000) (Machine.mk (fun a => a % 256) (fun _ => 0x20)).mem
        "sample" [0x11, -1, 0x33] 3 1 0 = .ok (Signature.mk "sample" 0x401001 [1, 2]) ∧
    (∀ c ∈ [PatchCall.overwrite 0x401001 [0xFF], PatchCall.write_code 0x401002 [0xFFFF],
            PatchCall.fill_with_nops 0x401001 2,
        PatchCall.restore, PatchCall.overwrite 0x401002 [0xC3]],
      c.inside (Signature.mk "sample" 0x401001 [1, 2])) ∧
    (read_range ((Signature.mk "sample" 0x401001 [1, 2]).restore
        (run_calls (Signature.mk "sample" 0x401001 [1, 2])
          [PatchCall.overwrite 0x401001 [0xFF], PatchCall.write_code 0x401002 [0xFFFF],
            PatchCall.fill_with_nops 0x401001 2,
            PatchCall.restore, PatchCall.overwrite 0x401002 [0xC3]]
          (Machine.mk (fun a => a % 256) (fun _ => 0x20)))).mem
        (Signature.mk "sample" 0x401001 [1, 2]).data
        ((Signature.mk "sample" 0x401001 [1, 2]).data
          + (Signature.mk "sample" 0x401001 [1, 2]).m_original_data.length) = [1, 2]) :=
  have hs : Signature.Signature (fun _ _ _ _ => 0x401000)
      (Machine.mk (fun a => a % 256) (fun _ => 0x20)).mem "sample" [0x11, -1, 0x33] 3 1 0
      = .ok (Signature.mk "sample" 0x401001 [1, 2]) := rfl
  have hin : ∀ c ∈ [PatchCall.overwrite 0x401001 [0xFF], PatchCall.write_code 0x401002 [0xFFFF],
            PatchCall.fill_with_nops 0x401001 2,
        PatchCall.restore, PatchCall.overwrite 0x401002 [0xC3]],
      c.inside (Signature.mk "sample" 0x401001 [1, 2]) := by decide
  ⟨hs, hin, (restore_round_trip _ _ _ _ _ _ _ _ hs _ hin).1⟩

/-! ## The constructor -/

/-- C4 (as stated, refuted): with a pattern of length 3 and byte offset 5 the scanner
reports a match, at `0x401000`, and the construction fails all the same, with the
`length_error` of the reversed range: it does not succeed. -/
theorem constructor_fails_on_reversed_range :
    (fun _ _ _ _ => 0x401000 : Scanner) (fun _ => 0x90) [0x11, -1, 0x33] 3 0 ≠ 0 ∧
    Signature.Signature (fun _ _ _ _ => 0x401000) (fun _ => 0x90) "sample" [0x11, -1, 0x33] 3 5 0
      = .error (.length_error "vector::_M_range_insert") ∧
    ¬ ∃ s, Signature.Signature (fun _ _ _ _ => 0x401000) (fun _ => 0x90) "sample"
      [0x11, -1, 0x33] 3 5 0 = .ok s := by
  have h : Signature.Signature (fun _ _ _ _ => 0x401000) (fun _ => 0x90) "sample"
      [0x11, -1, 0x33] 3 5 0 = .error (.length_error "vector::_M_range_insert") := rfl
  refine ⟨by decide, h, ?_⟩
  rintro ⟨s, hs⟩
  rw [h] at hs
  cases hs

/-- C4 (amended): constructing a Signature with a byte offset that does not exceed the
pattern length fails exactly when the scanner `FindCode` returns no match (the null
address); the failure is the `runtime_error` whose text is
"Could not find signature " followed by the name; otherwise the construction succeeds
with `name()` the given name and `data()` the match address plus the offset. The array
form of `find_signature` behaves as the constructor. -/
theorem constructor_fails_iff_not_found (FindCode : Scanner) (mem : Bytes) (name : String)
    (signature : List Int) (lenght offset match_num : Nat) (hoff : offset ≤ lenght) :
    ((∃ e, Signature.Signature FindCode mem name signature lenght offset match_num = .error e) ↔
      FindCode mem signature lenght match_num = 0) ∧
    (FindCode mem signature lenght match_num = 0 →
      Signature.Signature FindCode mem name signature lenght offset match_num =
        .error (.runtime_error ("Could not find signature " ++ name))) ∧
    (FindCode mem signature lenght match_num ≠ 0 →
      ∃ s, Signature.Signature FindCode mem name signature lenght offset match_num = .ok s ∧
        s.name = name ∧ s.data = FindCode mem signature lenght match_num + offset) ∧
    find_signature FindCode mem name signature lenght offset match_num =
      Signature.Signature FindCode mem name signature lenght offset match_num := by
  refine ⟨?_, ?_, ?_, ?_⟩
  · by_cases h : FindCode mem signature lenght match_num ≠ 0
    · rw [constructor_found _ _ _ _ _ _ _ h hoff]
      constructor
      · rintro ⟨e, he⟩
        cases he
      · intro h0
        exact absurd h0 h
    · rw [constructor_not_found _ _ _ _ _ _ _ (not_not.mp h)]
      constructor
      · intro _
        exact not_not.mp h
      · intro _
        exact ⟨_, rfl⟩
  · intro h0
    exact constructor_not_found _ _ _ _ _ _ _ h0
  · intro h
    rw [constructor_found _ _ _ _ _ _ _ h hoff]
    exact ⟨_, rfl, rfl, rfl⟩
  · unfold find_signature
    split <;> rename_i h <;> rw [h]

/-- Witness of C4 (amended): a pattern of length 3 resolved at `0x401000` with offset 1. -/
theorem constructor_fails_iff_not_found_witness :
    (1 : Nat) ≤ 3 ∧
    ((fun _ _ _ _ => 0x401000 : Scanner) (fun a => a % 256) [0x11, -1, 0x33] 3 0 ≠ 0 →
      ∃ s, Signature.Signature (fun _ _ _ _ => 0x401000) (fun a => a % 256) "sample"
          [0x11, -1, 0x33] 3 1 0 = .ok s ∧
        s.name = "sample" ∧
        s.data = (fun _ _ _ _ => 0x401000 : Scanner) (fun a => a % 256) [0x11, -1, 0x33] 3 0 + 1) :=
  have hoff : (1 : Nat) ≤ 3 := by decide
  ⟨hoff, (constructor_fails_iff_not_found (fun _ _ _ _ => 0x401000) (fun a => a % 256) "sample"
    [0x11, -1, 0x33] 3 1 0 hoff).2.2.1⟩

/-- C5 (as stated, refuted): two resolutions that match at the same address `0x401000`
with the same offset 1, one with a pattern of length 3 and one of length 4, capture
2 and 3 original bytes: the number captured depends on the pattern length. -/
theorem captured_count_follows_pattern_length :
    Signature.Signature (fun _ _ _ _ => 0x401000) (fun _ => 0) "a" [0x11, -1, 0x33] 3 1 0
      = .ok (Signature.mk "a" 0x401001 [0, 0]) ∧
    Signature.Signature (fun _ _ _ _ => 0x401000) (fun _ => 0) "a" [0x11, -1, 0x33, 0x44] 4 1 0
      = .ok (Signature.mk "a" 0x401001 [0, 0, 0]) ∧
    (Signature.mk "a" 0x401001 [0, 0]).data = (Signature.mk "a" 0x401001 [0, 0, 0]).data ∧
    (Signature.mk "a" 0x401001 [0, 0]).m_original_data.length ≠
      (Signature.mk "a" 0x401001 [0, 0, 0]).m_original_data.length :=
  ⟨rfl, rfl, rfl, by decide⟩

/-- C5 (amended): the number of original bytes a Signature captures is the pattern
length minus the byte offset, the offset of a successful construction being at most
the pattern length; the constructor takes no separate byte count, so two successful
resolutions with the same byte offset capture different numbers of bytes whenever
their pattern lengths differ. -/
theorem captured_count (FindCode : Scanner) (mem : Bytes) (name : String)
    (signature : List Int) (lenght offset match_num : Nat) (s : Signature)
    (hs : Signature.Signature FindCode mem name signature lenght offset match_num = .ok s) :
    offset ≤ lenght ∧
    s.m_original_data.length + offset = lenght ∧
    (∀ (FindCode2 : Scanner) (mem2 : Bytes) (name2 : String) (signature2 : List Int)
        (lenght2 match_num2 : Nat) (s2 : Signature),
      Signature.Signature FindCode2 mem2 name2 signature2 lenght2 offset match_num2 = .ok s2 →
      lenght ≠ lenght2 → s.m_original_data.length ≠ s2.m_original_data.length) := by
  have hlen : ∀ (F : Scanner) (m : Bytes) (n : String) (sg : List Int) (l k : Nat) (t : Signature),
      Signature.Signature F m n sg l offset k = .ok t →
      offset ≤ l ∧ t.m_original_data.length + offset = l := by
    intro F m n sg l k t ht
    have hoff := constructor_ok_offset _ _ _ _ _ _ _ _ ht
    obtain ⟨_, h⟩ := constructor_ok _ _ _ _ _ _ _ _ ht
    subst h
    simp only [read_range_length]
    omega
  obtain ⟨h1, h2⟩ := hlen _ _ _ _ _ _ _ hs
  refine ⟨h1, h2, ?_⟩
  intro F2 m2 n2 sg2 l2 k2 s2 hs2 hne
  obtain ⟨_, h4⟩ := hlen _ _ _ _ _ _ _ hs2
  omega

/-- Witness of C5 (amended): a pattern of length 3 resolved with offset 1 captures 2 bytes. -/
theorem captured_count_witness :
    Signature.Signature (fun _ _ _ _ => 0x401000) (fun a => a % 256) "sample" [0x11, -1, 0x33] 3 1 0
      = .ok (Signature.mk "sample" 0x401001 [1, 2]) ∧
    (Signature.mk "sample" 0x401001 [1, 2]).m_original_data.length + 1 = 3 :=
  have hs : Signature.Signature (fun _ _ _ _ => 0x401000) (fun a => a % 256) "sample"
      [0x11, -1, 0x33] 3 1 0 = .ok (Signature.mk "sample" 0x401001 [1, 2]) := rfl
  ⟨hs, (captured_count _ _ _ _ _ _ _ _ hs).2.1⟩

/-! ## Resolution of the catalog -/

/-- One `FIND_SIGNATURE` whose pattern is found appends the resolved signature. -/
theorem FIND_SIGNATURE_found (FindCode : Scanner) (mem : Bytes) (st : State) (e : CatalogEntry)
    (h : FindCode mem e.data e.data.length e.match_num ≠ 0) (hoff : e.offset ≤ e.data.length) :
    FIND_SIGNATURE FindCode mem st e.name e.offset e.match_num e.data =
      ({ st with signatures := st.signatures ++ [resolved FindCode mem e] }, none) := by
  unfold FIND_SIGNATURE
  rw [constructor_found _ _ _ _ _ _ _ h hoff]
  rfl

/-- One `FIND_SIGNATURE` whose pattern is not found throws and leaves the state. -/
theorem FIND_SIGNATURE_missing (FindCode : Scanner) (mem : Bytes) (st : State) (e : CatalogEntry)
    (h : FindCode mem e.data e.data.length e.match_num = 0) :
    FIND_SIGNATURE FindCode mem st e.name e.offset e.match_num e.data =
      (st, some (.runtime_error ("Could not find signature " ++ e.name))) := by
  unfold FIND_SIGNATURE
  rw [constructor_not_found _ _ _ _ _ _ _ h]

/-- A run over entries that are all found registers all of them, in order. -/
theorem find_all_found (FindCode : Scanner) (mem : Bytes) (es : List CatalogEntry) (st : State)
    (h : ∀ x ∈ es, FindCode mem x.data x.data.length x.match_num ≠ 0)
    (hoff : ∀ x ∈ es, x.offset ≤ x.data.length) :
    find_all FindCode mem es st =
      ({ st with signatures := st.signatures ++ es.map (resolved FindCode mem) }, none) := by
  induction es generalizing st with
  | nil => simp [find_all]
  | cons e rest ih =>
    have he := h e (List.mem_cons_self _ _)
    have hrest : ∀ x ∈ rest, FindCode mem x.data x.data.length x.match_num ≠ 0 :=
      fun x hx => h x (List.mem_cons_of_mem _ hx)
    have hoffrest : ∀ x ∈ rest, x.offset ≤ x.data.length :=
      fun x hx => hoff x (List.mem_cons_of_mem _ hx)
    unfold find_all
    rw [FIND_SIGNATURE_found _ _ _ _ he (hoff e (List.mem_cons_self _ _))]
    dsimp only
    rw [ih _ hrest hoffrest]
    simp

/-- A run stops at the first entry that is not found: the entries before it are
registered, the exception names the missing entry. -/
theorem find_all_missing (FindCode : Scanner) (mem : Bytes) (pre post : List CatalogEntry)
    (e : CatalogEntry) (st : State)
    (hpre : ∀ x ∈ pre, FindCode mem x.data x.data.length x.match_num ≠ 0)
    (hoff : ∀ x ∈ pre, x.offset ≤ x.data.length)
    (he : FindCode mem e.data e.data.length e.match_num = 0) :
    find_all FindCode mem (pre ++ e :: post) st =
      ({ st with signatures := st.signatures ++ pre.map (resolved FindCode mem) },
        some (.runtime_error ("Could not find signature " ++ e.name))) := by
  induction pre generalizing st with
  | nil =>
    simp only [List.nil_append, List.map_nil, List.append_nil]
    unfold find_all
    rw [FIND_SIGNATURE_missing _ _ _ _ he]
  | cons x rest ih =>
    have hx := hpre x (List.mem_cons_self _ _)
    have hrest : ∀ y ∈ rest, FindCode mem y.data y.data.length y.match_num ≠ 0 :=
      fun y hy => hpre y (List.mem_cons_of_mem _ hy)
    have hoffrest : ∀ y ∈ rest, y.offset ≤ y.data.length :=
      fun y hy => hoff y (List.mem_cons_of_mem _ hy)
    simp only [List.cons_append]
    unfold find_all
    rw [FIND_SIGNATURE_found _ _ _ _ hx (hoff x (List.mem_cons_self _ _))]
    dsimp only
    rw [ih _ hrest hoffrest]
    simp

/-- The run over a list that is not empty, unfolded once. -/
theorem find_all_cons (FindCode : Scanner) (mem : Bytes) (e : CatalogEntry)
    (rest : List CatalogEntry) (st : State) :
    find_all FindCode mem (e :: rest) st =
      match FIND_SIGNATURE FindCode mem st e.name e.offset e.match_num e.data with
      | (st1, none) => find_all FindCode mem rest st1
      | (st1, some ex) => (st1, some ex) := rfl

/-- A run over two lists is the run over the first and then, unless that threw, over
the second. -/
theorem find_all_append (FindCode : Scanner) (mem : Bytes) (xs ys : List CatalogEntry)
    (st : State) :
    find_all FindCode mem (xs ++ ys) st =
      match find_all FindCode mem xs st with
      | (st1, none) => find_all FindCode mem ys st1
      | (st1, some ex) => (st1, some ex) := by
  induction xs generalizing st with
  | nil => simp [find_all]
  | cons x rest ih =>
    rw [List.cons_append, find_all_cons, find_all_cons]
    cases hx : FIND_SIGNATURE FindCode mem st x.name x.offset x.match_num x.data with
    | mk st1 r =>
      cases r with
      | none => exact ih st1
      | some ex => rfl

/-- No entry of the catalog has an offset beyond its pattern. -/
theorem catalog_offset_le : ∀ x ∈ catalog, x.offset ≤ x.data.length := by decide

/-- `find_signatures` is one run over the whole catalog. -/
theorem find_signatures_eq (FindCode : Scanner) (mem : Bytes) (st : State) :
    find_signatures FindCode mem st = find_all FindCode mem catalog st := by
  unfold find_signatures find_core_signatures find_engine_signatures catalog
  rw [find_all_append]

/-- C6 (as stated, refuted): with every pattern found except that of `window_globals`,
the second entry, `find_signatures` on the empty registry ends in the exception
"Could not find signature window_globals" and the registry holds the signature of
`engine_type`, the entry before it: the registry is not what it was before the call. -/
theorem find_signatures_keeps_earlier_entries :
    (find_signatures
        (fun _ signature _ _ =>
          if signature = [0x8B, 0x45, 0x08, 0xA3, -1, -1, -1, -1, 0x8B, 0x4D, 0x14] then 0
          else 0x401000)
        (fun _ => 0x90) (State.mk [] [])).2
      = some (.runtime_error "Could not find signature window_globals") ∧
    (find_signatures
        (fun _ signature _ _ =>
          if signature = [0x8B, 0x45, 0x08, 0xA3, -1, -1, -1, -1, 0x8B, 0x4D, 0x14] then 0
          else 0x401000)
        (fun _ => 0x90) (State.mk [] [])).1.signatures
      = [Signature.mk "engine_type" 0x401004
          [0x90, 0x90, 0x90, 0x90, 0x90, 0x90, 0x90, 0x90, 0x90, 0x90]] ∧
    (find_signatures
        (fun _ signature _ _ =>
          if signature = [0x8B, 0x45, 0x08, 0xA3, -1, -1, -1, -1, 0x8B, 0x4D, 0x14] then 0
          else 0x401000)
        (fun _ => 0x90) (State.mk [] [])).1.signatures ≠ (State.mk [] []).signatures := by
  refine ⟨?_, ?_, ?_⟩
  · decide
  · decide
  · decide

/-- C6 (amended): if a pattern of the catalog is not found, `find_signatures` ends in
the `runtime_error` naming the first entry that is missing; the registry afterwards
is the registry before the call followed by the signatures of the catalog entries
that precede that entry, in order, and no later entry is registered. -/
theorem find_signatures_stops_at_first_missing (FindCode : Scanner) (mem : Bytes) (st : State)
    (pre post : List CatalogEntry) (e : CatalogEntry)
    (hcat : core_signatures ++ engine_signatures = pre ++ e :: post)
    (hpre : ∀ x ∈ pre, FindCode mem x.data x.data.length x.match_num ≠ 0)
    (he : FindCode mem e.data e.data.length e.match_num = 0) :
    find_signatures FindCode mem st =
      ({ st with signatures := st.signatures ++ pre.map (resolved FindCode mem) },
        some (.runtime_error ("Could not find signature " ++ e.name))) := by
  have hoff : ∀ x ∈ pre, x.offset ≤ x.data.length := by
    intro x hx
    apply catalog_offset_le
    unfold catalog
    rw [hcat]
    exact List.mem_append_left _ hx
  rw [find_signatures_eq, catalog, hcat]
  exact find_all_missing _ _ _ _ _ _ hpre hoff he

/-- Witness of C6 (amended): `console_out`, the third entry, is the first one missing;
a signature registered earlier and the two entries before `console_out` are in the
registry afterwards. -/
theorem find_signatures_stops_at_first_missing_witness :
    (core_signatures ++ engine_signatures =
      core_signatures.take 2 ++ CatalogEntry.mk "console_out" 0 0 console_out_pattern
        :: engine_signatures) ∧
    (∀ x ∈ core_signatures.take 2,
      scanner_without_console_out (fun _ => 0xCC) x.data x.data.length x.match_num ≠ 0) ∧
    scanner_without_console_out (fun _ => 0xCC) console_out_pattern console_out_pattern.length 0
      = 0 ∧
    find_signatures scanner_without_console_out (fun _ => 0xCC)
        (State.mk [Signature.mk "earlier" 0x402000 [0xCC]] []) =
      (State.mk ([Signature.mk "earlier" 0x402000 [0xCC]] ++
          (core_signatures.take 2).map (resolved scanner_without_console_out (fun _ => 0xCC))) [],
        some (.runtime_error ("Could not find signature " ++ "console_out"))) :=
  have hcat : core_signatures ++ engine_signatures =
      core_signatures.take 2 ++ CatalogEntry.mk "console_out" 0 0 console_out_pattern
        :: engine_signatures := rfl
  have hpre : ∀ x ∈ core_signatures.take 2,
      scanner_without_console_out (fun _ => 0xCC) x.data x.data.length x.match_num ≠ 0 := by
    decide
  have he : scanner_without_console_out (fun _ => 0xCC) console_out_pattern
      console_out_pattern.length 0 = 0 := by decide
  ⟨hcat, hpre, he,
    find_signatures_stops_at_first_missing scanner_without_console_out (fun _ => 0xCC)
      (State.mk [Signature.mk "earlier" 0x402000 [0xCC]] []) (core_signatures.take 2)
      engine_signatures (CatalogEntry.mk "console_out" 0 0 console_out_pattern) hcat hpre he⟩

/-- C7 (code defect): when every pattern of the catalog is found, `find_signatures`
on the empty registry completes without an exception and the registry holds two
signatures named `apply_damage_function`: the names are not unique. -/
theorem find_signatures_registers_a_name_twice :
    (find_signatures (fun _ _ _ _ => 0x401000) (fun _ => 0x90) (State.mk [] [])).2 = none ∧
    ((find_signatures (fun _ _ _ _ => 0x401000) (fun _ => 0x90) (State.mk [] [])).1.signatures.map
        Signature.name).count "apply_damage_function" = 2 ∧
    ¬ ((find_signatures (fun _ _ _ _ => 0x401000) (fun _ => 0x90)
        (State.mk [] [])).1.signatures.map Signature.name).Nodup := by
  have h := find_all_found (fun _ _ _ _ => 0x401000) (fun _ => 0x90) catalog (State.mk [] [])
    (fun _ _ => by show (0x401000 : Nat) ≠ 0; decide) catalog_offset_le
  rw [find_signatures_eq, h]
  have hnames : (catalog.map (resolved (fun _ _ _ _ => 0x401000) (fun _ => 0x90))).map
      Signature.name = catalog.map CatalogEntry.name := by
    rw [List.map_map]; rfl
  dsimp only
  rw [List.nil_append, hnames]
  have hc : (catalog.map CatalogEntry.name).count "apply_damage_function" = 2 := by decide
  refine ⟨rfl, hc, ?_⟩
  intro hnd
  have hle := List.nodup_iff_count_le_one.mp hnd "apply_damage_function"
  omega

/-! ## Lookup -/

/-- The search loop returns the first element with the name, when there is one. -/
theorem get_signature_loop_first (name : String) (l : List Signature)
    (h : ∃ s ∈ l, s.name = name) :
    ∃ pre s post, l = pre ++ s :: post ∧ (∀ t ∈ pre, t.name ≠ name) ∧ s.name = name ∧
      get_signature_loop name l = some s := by
  induction l with
  | nil =>
    obtain ⟨s, hs, _⟩ := h
    cases hs
  | cons x rest ih =>
    by_cases hx : x.name = name
    · refine ⟨[], x, rest, rfl, ?_, hx, ?_⟩
      · intro t ht
        cases ht
      · simp only [get_signature_loop, if_pos hx]
    · have hrest : ∃ s ∈ rest, s.name = name := by
        obtain ⟨s, hs, hn⟩ := h
        rcases List.mem_cons.mp hs with rfl | hs
        · exact absurd hn hx
        · exact ⟨s, hs, hn⟩
      obtain ⟨pre, s, post, hl, hpre, hn, hget⟩ := ih hrest
      refine ⟨x :: pre, s, post, ?_, ?_, hn, ?_⟩
      · rw [hl]; rfl
      · intro t ht
        rcases List.mem_cons.mp ht with rfl | ht
        · exact hx
        · exact hpre t ht
      · simp only [get_signature_loop, if_neg hx]
        exact hget

/-- The search loop returns nothing when no element has the name. -/
theorem get_signature_loop_none (name : String) (l : List Signature)
    (h : ∀ s ∈ l, s.name ≠ name) : get_signature_loop name l = none := by
  induction l with
  | nil => rfl
  | cons x rest ih =>
    have hx := h x (List.mem_cons_self _ _)
    simp only [get_signature_loop, if_neg hx]
    exact ih (fun s hs => h s (List.mem_cons_of_mem _ hs))

/-- The value `get_signature` returns is that of its search loop. -/
theorem get_signature_fst (st : State) (name : String) :
    (get_signature st name).1 = get_signature_loop name st.signatures := by
  unfold get_signature
  split <;> rename_i h <;> rw [h]

/-- The registry is not changed by `get_signature`. -/
theorem get_signature_snd (st : State) (name : String) :
    (get_signature st name).2.signatures = st.signatures := by
  unfold get_signature
  split <;> rfl

/-- C8: `get_signature(name)` returns the first-registered signature whose `name()` is
`name` when the registry holds one, returns null (`none`) when it holds none, and in
both cases leaves the registry as it was. -/
theorem get_signature_first_or_null (st : State) (name : String) :
    (get_signature st name).2.signatures = st.signatures ∧
    ((∃ s ∈ st.signatures, s.name = name) →
      ∃ pre s post, st.signatures = pre ++ s :: post ∧ (∀ t ∈ pre, t.name ≠ name) ∧
        s.name = name ∧ (get_signature st name).1 = some s) ∧
    ((∀ s ∈ st.signatures, s.name ≠ name) → (get_signature st name).1 = none) := by
  refine ⟨get_signature_snd st name, ?_, ?_⟩
  · intro h
    rw [get_signature_fst]
    exact get_signature_loop_first name _ h
  · intro h
    rw [get_signature_fst]
    exact get_signature_loop_none name _ h

/-- For a registered name `get_address_for_signature` returns `data()` of the
first-registered signature with that name. -/
theorem get_address_for_signature_registered (st : State) (name : String)
    (h : ∃ s ∈ st.signatures, s.name = name) :
    ∃ pre s post, st.signatures = pre ++ s :: post ∧ (∀ t ∈ pre, t.name ≠ name) ∧
      s.name = name ∧ (get_address_for_signature st name).1 = .ok s.data := by
  obtain ⟨pre, s, post, hl, hpre, hn, hget⟩ := get_signature_loop_first name _ h
  refine ⟨pre, s, post, hl, hpre, hn, ?_⟩
  unfold get_address_for_signature get_signature
  rw [hget]

/-- For a name that is not registered `get_address_for_signature` dereferences the
null pointer `get_signature` returns. -/
theorem get_address_for_signature_unregistered (st : State) (name : String)
    (h : ∀ s ∈ st.signatures, s.name ≠ name) :
    (get_address_for_signature st name).1 = .error .null_dereference := by
  unfold get_address_for_signature get_signature
  rw [get_signature_loop_none name _ h]

/-- C9 (code defect): with only `engine_type` registered, the call
`get_address_for_signature("map_index_demo")` does not return a null or sentinel
address: `get_signature` returns null and the call dereferences it. -/
theorem get_address_for_signature_faults_on_unknown_name :
    (get_signature (State.mk [Signature.mk "engine_type" 0x401004 [0x90]] [])
      "map_index_demo").1 = none ∧
    (get_address_for_signature (State.mk [Signature.mk "engine_type" 0x401004 [0x90]] [])
      "map_index_demo").1 = .error .null_dereference ∧
    (get_address_for_signature (State.mk [Signature.mk "engine_type" 0x401004 [0x90]] [])
      "map_index_demo").1 ≠ .ok 0 := by
  have h : ∀ s ∈ (State.mk [Signature.mk "engine_type" 0x401004 [0x90]] []).signatures,
      s.name ≠ "map_index_demo" := by decide
  refine ⟨?_, get_address_for_signature_unregistered _ _ h, ?_⟩
  · rw [get_signature_fst]
    exact get_signature_loop_none _ _ h
  · rw [get_address_for_signature_unregistered _ _ h]
    intro hc
    cases hc


/-! ## Decoding of textual patterns -/

/-- What `strtol` sees in a hexadecimal digit: no white space, no sign, not the `?` of
a wildcard token, and a digit of base 16 with the value of its place. -/
theorem hex_digit_facts (c : Char) (h : is_hex_digit c) :
    isspace c = false ∧ c ≠ '-' ∧ c ≠ '+' ∧ c ≠ '?' ∧
      digit_in_base 16 c = some (hex_digit_value c) ∧ hex_digit_value c < 16 := by
  have hl : ∀ d ∈ hex_digits_lower, isspace d = false ∧ d ≠ '-' ∧ d ≠ '+' ∧ d ≠ '?' ∧
      digit_in_base 16 d = some (hex_digit_value d) ∧ hex_digit_value d < 16 := by decide
  have hu : ∀ d ∈ hex_digits_upper, isspace d = false ∧ d ≠ '-' ∧ d ≠ '+' ∧ d ≠ '?' ∧
      digit_in_base 16 d = some (hex_digit_value d) ∧ hex_digit_value d < 16 := by decide
  rcases h with h | h
  · exact hl c h
  · exact hu c h

/-- The library call `std::stoi` on a token of two hexadecimal digits gives their value. -/
theorem stoi_hex_pair (a b : Char) (ha : is_hex_digit a) (hb : is_hex_digit b) :
    stoi [a, b] 16 = .ok ((16 * hex_digit_value a + hex_digit_value b : Nat) : Int) := by
  obtain ⟨hsa, hma, hpa, _, hda, hva⟩ := hex_digit_facts a ha
  obtain ⟨_, _, _, _, hdb, hvb⟩ := hex_digit_facts b hb
  have h1 : skip_space [a, b] = [a, b] := by simp [skip_space, hsa]
  have h2 : read_sign [a, b] = (false, [a, b]) := by simp [read_sign, hma, hpa]
  have h3 : skip_0x 16 [a, b] = [a, b] := rfl
  have h4 : read_digits 16 [a, b] none = some (16 * hex_digit_value a + hex_digit_value b) := by
    simp [read_digits, hda, hdb]
  unfold stoi
  rw [h1, h2]
  dsimp only
  rw [h3, h4]
  dsimp only
  have h5 : ¬ (((16 * hex_digit_value a + hex_digit_value b : Nat) : Int) < -2147483648 ∨
      2147483647 < ((16 * hex_digit_value a + hex_digit_value b : Nat) : Int)) := by omega
  simp only [Bool.false_eq_true, if_false]
  rw [if_neg h5]

/-- A value of two hexadecimal digits is kept by the conversion to `short`. -/
theorem to_short_hex_pair (a b : Char) (ha : is_hex_digit a) (hb : is_hex_digit b) :
    to_short ((16 * hex_digit_value a + hex_digit_value b : Nat) : Int) =
      ((16 * hex_digit_value a + hex_digit_value b : Nat) : Int) := by
  obtain ⟨_, _, _, _, _, hva⟩ := hex_digit_facts a ha
  obtain ⟨_, _, _, _, _, hvb⟩ := hex_digit_facts b hb
  unfold to_short
  omega

/-- The decoding loop on a text of valid tokens appends one element per token. -/
theorem find_signature_decode_tokens (tokens : List (Char × Char))
    (h : ∀ t ∈ tokens, valid_token t) (data : List Int) :
    find_signature_decode (token_text tokens) data = .ok (data ++ tokens.map token_element) := by
  induction tokens generalizing data with
  | nil => simp [token_text, find_signature_decode]
  | cons t rest ih =>
    have ht := h t (List.mem_cons_self _ _)
    have hrest : ∀ u ∈ rest, valid_token u := fun u hu => h u (List.mem_cons_of_mem _ hu)
    obtain ⟨a, b⟩ := t
    simp only [token_text, find_signature_decode]
    by_cases hq : a = '?' ∧ b = '?'
    · obtain ⟨rfl, rfl⟩ := hq
      rw [if_pos rfl, ih hrest]
      simp [token_element]
    · have hne : ¬ ([a, b] = ['?', '?']) := by
        intro hc
        injection hc with h1 h2
        injection h2 with h2 _
        exact hq ⟨h1, h2⟩
      rcases ht with ht | ⟨ha, hb⟩
      · exact absurd ht hq
      · rw [if_neg hne, stoi_hex_pair a b ha hb]
        dsimp only
        rw [ih hrest, to_short_hex_pair a b ha hb]
        simp [token_element, hq]

/-- The text of some tokens has two characters per token. -/
theorem token_text_length (tokens : List (Char × Char)) :
    (token_text tokens).length = 2 * tokens.length := by
  induction tokens with
  | nil => rfl
  | cons t rest ih => simp only [token_text, List.length_cons, ih]; omega

/-- C10: for every string made of two-character tokens that are each `??` or two
hexadecimal digits, the textual `find_signature` decodes it to one pattern element per
token, in order, the wildcard `-1` for `??` and the token's hexadecimal value
otherwise, and resolves that pattern with its length. -/
theorem find_signature_string_decodes (tokens : List (Char × Char))
    (h : ∀ t ∈ tokens, valid_token t) (FindCode : Scanner) (mem : Bytes) (name : String)
    (offset match_num : Nat) :
    find_signature_decode (token_text tokens) [] = .ok (tokens.map token_element) ∧
    (tokens.map token_element).length = tokens.length ∧
    find_signature_string FindCode mem name (token_text tokens) offset match_num =
      Signature.Signature FindCode mem name (tokens.map token_element) tokens.length
        offset match_num := by
  have hd := find_signature_decode_tokens tokens h []
  rw [List.nil_append] at hd
  refine ⟨hd, List.length_map _ _, ?_⟩
  unfold find_signature_string
  have hlen : ¬ ((token_text tokens).length % 2 ≠ 0) := by
    rw [token_text_length]; omega
  rw [if_neg hlen, hd]
  dsimp only
  rw [List.length_map]

/-- Witness of C10: `"90??C3"` decodes to `[0x90, -1, 0xC3]`. -/
theorem find_signature_string_decodes_witness :
    (∀ t ∈ [('9', '0'), ('?', '?'), ('C', '3')], valid_token t) ∧
    token_text [('9', '0'), ('?', '?'), ('C', '3')] = "90??C3".toList ∧
    find_signature_decode "90??C3".toList [] = .ok [0x90, -1, 0xC3] :=
  have h : ∀ t ∈ [('9', '0'), ('?', '?'), ('C', '3')], valid_token t := by decide
  ⟨h, rfl,
    (find_signature_string_decodes [('9', '0'), ('?', '?'), ('C', '3')] h
      (fun _ _ _ _ => 0) (fun _ => 0) "sample" 0 0).1⟩

/-! ## Malformed textual patterns -/

/-- A text of odd length is refused with the error "Invalid signature ...", whatever
the scanner and the memory are. -/
theorem find_signature_string_odd (FindCode : Scanner) (mem : Bytes) (name : String)
    (signature : List Char) (offset match_num : Nat) (h : signature.length % 2 = 1) :
    find_signature_string FindCode mem name signature offset match_num =
      .error (.runtime_error ("Invalid signature " ++ String.mk signature)) := by
  unfold find_signature_string
  have h1 : signature.length % 2 ≠ 0 := by omega
  rw [if_pos h1]

/-- C11 (code defect): the text `"9Z"`, whose one token is neither `??` nor two
hexadecimal digits, is not refused: `std::stoi` stops at the `Z` and gives 9, the
pattern `[9]` goes to the scanner and, when it is found, a Signature is returned. -/
theorem find_signature_string_accepts_9Z :
    ¬ valid_token ('9', 'Z') ∧
    find_signature_decode "9Z".toList [] = .ok [9] ∧
    find_signature_string (fun _ _ _ _ => 0x401000) (fun _ => 0x90) "sample" "9Z".toList 0 0 =
      .ok (Signature.mk "sample" 0x401000 [0x90]) :=
  ⟨by decide, rfl, rfl⟩

/-- C12 (code defect): the token `-F` decodes to the element `-15`, which is neither
the wildcard nor a byte value, and the token `-1`, which is not `??`, decodes to the
wildcard `-1`. -/
theorem find_signature_decode_signed_tokens :
    find_signature_decode "-F".toList [] = .ok [-15] ∧
    ¬ ((-15 : Int) = -1 ∨ (0 ≤ (-15 : Int) ∧ (-15 : Int) ≤ 255)) ∧
    find_signature_decode "-1".toList [] = .ok [-1] ∧
    ('-', '1') ≠ ('?', '?') :=
  ⟨rfl, by decide, rfl, by decide⟩

/-! ## Relative offsets -/

/-- C13: `calculate_32bit_offset(origin, destination)` is `destination - origin`
modulo `2^32` read as a signed 32-bit integer: it lies in `[-2^31, 2^31)`, it differs
from `destination - origin` by a multiple of `2^32`, and it is defined for all
arguments. -/
theorem calculate_32bit_offset_wraps (origin destination : Nat) :
    -2147483648 ≤ calculate_32bit_offset origin destination ∧
    calculate_32bit_offset origin destination < 2147483648 ∧
    (calculate_32bit_offset origin destination - ((destination : Int) - (origin : Int)))
      % 4294967296 = 0 ∧
    calculate_32bit_offset origin destination =
      (if ((destination : Int) - (origin : Int)) % 4294967296 < 2147483648
        then ((destination : Int) - (origin : Int)) % 4294967296
        else ((destination : Int) - (origin : Int)) % 4294967296 - 4294967296) := by
  unfold calculate_32bit_offset to_int32 to_uint32
  dsimp only
  refine ⟨?_, ?_, ?_, ?_⟩
  · split <;> omega
  · split <;> omega
  · split <;> omega
  · split <;> split <;> omega

/-- C14: `follow_32bit_offset(p)` is `(p + 4 + s) mod 2^32` for the 32-bit value `s`
stored at `p`, and reading `s` as a signed number gives the same address. -/
theorem follow_32bit_offset_value (mem : Bytes) (p : Nat) :
    follow_32bit_offset mem p = (p + 4 + read_uint32 mem p) % 4294967296 ∧
    (follow_32bit_offset mem p : Int) =
      ((p : Int) + 4 + to_int32 (read_uint32 mem p)) % 4294967296 := by
  unfold follow_32bit_offset to_int32 to_uint32
  dsimp only
  constructor
  · omega
  · split <;> omega

/-- The 32-bit value read back from where it was stored. -/
theorem read_store_int32 (mem : Bytes) (address : Nat) (value : Int) :
    read_uint32 (store_int32 mem address value) address = (value % 4294967296).toNat := by
  unfold read_uint32 store_int32 store
  have h1 : ¬ (address = address + 1) := by omega
  have h2 : ¬ (address = address + 2) := by omega
  have h3 : ¬ (address = address + 3) := by omega
  have h4 : ¬ (address + 1 = address + 2) := by omega
  have h5 : ¬ (address + 1 = address + 3) := by omega
  have h6 : ¬ (address + 2 = address + 3) := by omega
  simp only [if_true, if_neg h1, if_neg h2, if_neg h3, if_neg h4, if_neg h5, if_neg h6,
    if_pos]
  omega

/-- C15 (as stated, refuted): with `calculate_32bit_offset(0x401000, 0x402000)` stored
at `0x401000`, `follow_32bit_offset(0x401000)` is `0x402004`, not `0x402000`. -/
theorem follow_after_calculate_is_off_by_four :
    calculate_32bit_offset 0x401000 0x402000 = 0x1000 ∧
    follow_32bit_offset
      (store_int32 (fun _ => 0) 0x401000 (calculate_32bit_offset 0x401000 0x402000)) 0x401000
      = 0x402004 ∧
    follow_32bit_offset
      (store_int32 (fun _ => 0) 0x401000 (calculate_32bit_offset 0x401000 0x402000)) 0x401000
      ≠ 0x402000 := by
  refine ⟨by decide, by decide, by decide⟩

/-- C15 (amended): with `calculate_32bit_offset(origin, destination)` stored as the
32-bit operand at `origin`, `follow_32bit_offset(origin)` is `destination + 4` modulo
`2^32`: the stored offset is taken from the end of the operand, not from its start. -/
theorem follow_after_calculate (mem : Bytes) (origin destination : Nat) :
    follow_32bit_offset (store_int32 mem origin (calculate_32bit_offset origin destination))
      origin = (destination + 4) % 4294967296 := by
  unfold follow_32bit_offset
  rw [read_store_int32]
  unfold calculate_32bit_offset to_int32 to_uint32
  dsimp only
  split <;> omega

/-! ## fill_with_nops -/

/-- The one-value `overwrite` stores the value at the address. -/
theorem overwrite_value_mem (m : Machine) (pointer value : Nat) :
    (overwrite_value m pointer value).mem = store m.mem pointer value := by
  unfold overwrite_value
  rw [overwrite_mem]
  funext a
  simp only [overwrite_copy, Nat.add_zero]

/-- The bytes after the first `n` iterations of the loop of `fill_with_nops`. -/
theorem fill_with_nops_loop_mem (address n : Nat) (m : Machine) (a : Nat) :
    (fill_with_nops_loop address n m).mem a =
      if address ≤ a ∧ a < address + n then 0x90 else m.mem a := by
  induction n with
  | zero =>
    have h0 : ¬ (address ≤ a ∧ a < address + 0) := by omega
    rw [if_neg h0]
    rfl
  | succ i ih =>
    simp only [fill_with_nops_loop, overwrite_value_mem, store]
    by_cases h : a = address + i
    · have h1 : address ≤ a ∧ a < address + (i + 1) := by omega
      rw [if_pos h, if_pos h1]
    · rw [if_neg h, ih]
      by_cases h2 : address ≤ a ∧ a < address + i
      · have h3 : address ≤ a ∧ a < address + (i + 1) := by omega
        rw [if_pos h2, if_pos h3]
      · have h3 : ¬ (address ≤ a ∧ a < address + (i + 1)) := by omega
        rw [if_neg h2, if_neg h3]

/-- C16: after `fill_with_nops(address, length)` every byte of
`[address, address + length)` is the no-op code `0x90`, every byte outside the range
is what it was, and with length 0 the machine is not changed at all. -/
theorem fill_with_nops_bytes (m : Machine) (address length : Nat) :
    (∀ a, address ≤ a ∧ a < address + length →
      (fill_with_nops m address length).mem a = 0x90) ∧
    (∀ a, ¬ (address ≤ a ∧ a < address + length) →
      (fill_with_nops m address length).mem a = m.mem a) ∧
    fill_with_nops m address 0 = m := by
  refine ⟨?_, ?_, rfl⟩
  · intro a ha
    unfold fill_with_nops
    rw [fill_with_nops_loop_mem, if_pos ha]
  · intro a ha
    unfold fill_with_nops
    rw [fill_with_nops_loop_mem, if_neg ha]

/-! ## Page protection -/

/-- The first page of a range that is not empty is one of its pages. -/
theorem in_pages_first (pointer length page : Nat) (h : in_pages pointer length page) :
    in_pages pointer length (pointer / PAGE_SIZE) := by
  unfold in_pages at h ⊢
  refine ⟨h.1, Nat.le_refl _, ?_⟩
  apply Nat.div_le_div_right
  omega

/-- The page protections after `write_code`: the pages of the range carry the
protection the first page had before the call, with or without the restoring call. -/
theorem write_code_prot (m : Machine) (pointer : Nat) (data : Nat → Nat) (length : Nat) :
    (write_code m pointer data length).prot =
      fun page => if in_pages pointer length page then m.prot (pointer / PAGE_SIZE)
        else m.prot page := by
  unfold write_code VirtualProtect
  dsimp only
  split
  · funext page
    dsimp only
    by_cases h : in_pages pointer length page
    · simp only [if_pos h]
    · simp only [if_neg h]
  · rename_i h
    have h1 : PAGE_EXECUTE_READWRITE = m.prot (pointer / PAGE_SIZE) := by
      by_contra hne
      exact h hne
    funext page
    dsimp only
    rw [← h1]

/-- C17: with page protection as explicit state, for every protection value `v` the
pages of `[pointer, pointer + length)` have before `write_code(pointer, data, length)`,
they have the protection `v` again after the call, and no other page changes its
protection; this holds too when `v` is the execute-read-write value, the one case in
which the restoring call is skipped. -/
theorem write_code_keeps_protection (m : Machine) (pointer : Nat) (data : Nat → Nat)
    (length v : Nat) (h : ∀ page, in_pages pointer length page → m.prot page = v) :
    (∀ page, in_pages pointer length page →
      (write_code m pointer data length).prot page = v) ∧
    (write_code m pointer data length).prot = m.prot := by
  have hprot : (write_code m pointer data length).prot = m.prot := by
    rw [write_code_prot]
    funext page
    dsimp only
    by_cases hp : in_pages pointer length page
    · rw [if_pos hp, h page hp, h _ (in_pages_first _ _ _ hp)]
    · rw [if_neg hp]
  refine ⟨?_, hprot⟩
  intro page hp
  rw [hprot]
  exact h page hp

/-- Witness of C17: a range over two pages that are read-only (`0x02`) before the call. -/
theorem write_code_keeps_protection_witness :
    (∀ page, in_pages 0x401FFF 2 page →
      (Machine.mk (fun _ => 0) (fun page => if page = 0x401 ∨ page = 0x402 then 0x02 else 0x20)).prot
        page = 0x02) ∧
    (∀ page, in_pages 0x401FFF 2 page →
      (write_code
        (Machine.mk (fun _ => 0) (fun page => if page = 0x401 ∨ page = 0x402 then 0x02 else 0x20))
        0x401FFF (fun _ => 0x90) 2).prot page = 0x02) :=
  have h : ∀ page, in_pages 0x401FFF 2 page →
      (Machine.mk (fun _ => 0) (fun page => if page = 0x401 ∨ page = 0x402 then 0x02 else 0x20)).prot
        page = 0x02 := by
    intro page hp
    unfold in_pages PAGE_SIZE at hp
    have h1 : page = 0x401 ∨ page = 0x402 := by omega
    simp only [h1, if_true]
  ⟨h, (write_code_keeps_protection _ 0x401FFF (fun _ => 0x90) 2 0x02 h).1⟩

/-! ## The captured bytes -/

/-- C20: for a successful construction with byte offset at most the pattern length,
the stored original data is the memory of `[match + offset, match + length)` at
resolution time: it starts at the effective address `data()` and holds exactly
`length - offset` bytes, the byte of index `i` being the one at `data() + i`. -/
theorem captured_bytes_are_memory (FindCode : Scanner) (mem : Bytes) (name : String)
    (signature : List Int) (lenght offset match_num : Nat) (s : Signature)
    (hs : Signature.Signature FindCode mem name signature lenght offset match_num = .ok s)
    (_hoff : offset ≤ lenght) :
    s.data = FindCode mem signature lenght match_num + offset ∧
    s.m_original_data.length = lenght - offset ∧
    s.data + s.m_original_data.length = FindCode mem signature lenght match_num + lenght ∧
    (∀ i, i < lenght - offset → s.m_original_data[i]? = some (mem (s.data + i))) := by
  obtain ⟨_, h⟩ := constructor_ok _ _ _ _ _ _ _ _ hs
  subst h
  refine ⟨rfl, ?_, ?_, ?_⟩
  · simp only [read_range_length]
    omega
  · simp only [Signature.data, read_range_length]
    omega
  intro i hi
  simp only [Signature.data]
  have hi2 : i < (read_range mem (FindCode mem signature lenght match_num + offset)
      (FindCode mem signature lenght match_num + lenght)).length := by
    rw [read_range_length]; omega
  rw [List.getElem?_eq_getElem hi2]
  simp only [read_range, List.getElem_map, List.getElem_range]

/-- Witness of C20: a pattern of length 3 resolved at `0x401000` with offset 1. -/
theorem captured_bytes_are_memory_witness :
    Signature.Signature (fun _ _ _ _ => 0x401000) (fun a => a % 256) "sample" [0x11, -1, 0x33] 3 1 0
      = .ok (Signature.mk "sample" 0x401001 [1, 2]) ∧
    1 ≤ 3 ∧
    (∀ i, i < 3 - 1 → (Signature.mk "sample" 0x401001 [1, 2]).m_original_data[i]? =
      some ((fun a => a % 256 : Bytes) ((Signature.mk "sample" 0x401001 [1, 2]).data + i))) :=
  have hs : Signature.Signature (fun _ _ _ _ => 0x401000) (fun a => a % 256) "sample"
      [0x11, -1, 0x33] 3 1 0 = .ok (Signature.mk "sample" 0x401001 [1, 2]) := rfl
  ⟨hs, by decide, (captured_bytes_are_memory _ _ _ _ _ _ _ _ hs (by decide)).2.2.2⟩

/-! ## The pattern scanner -/

/-- The comparison at one address succeeds exactly when every literal element equals
the byte under it. -/
theorem matches_at_iff (mem : Bytes) (address : Nat) (pattern : List Int) :
    matches_at mem address pattern = true ↔
      ∀ i, i < pattern.length →
        pattern.getD i 0 = -1 ∨ (mem (address + i) : Int) = pattern.getD i 0 := by
  induction pattern generalizing address with
  | nil =>
    simp [matches_at]
  | cons e rest ih =>
    have hstep : (∀ i, i < (e :: rest).length →
          (e :: rest).getD i 0 = -1 ∨ (mem (address + i) : Int) = (e :: rest).getD i 0) ↔
        ((e = -1 ∨ (mem address : Int) = e) ∧
          ∀ i, i < rest.length →
            rest.getD i 0 = -1 ∨ (mem (address + 1 + i) : Int) = rest.getD i 0) := by
      constructor
      · intro h
        refine ⟨?_, ?_⟩
        · have h0 := h 0 (by simp)
          simpa using h0
        · intro i hi
          have h1 := h (i + 1) (by simp; omega)
          have e1 : address + (i + 1) = address + 1 + i := by omega
          rw [e1] at h1
          simpa using h1
      · rintro ⟨h0, h1⟩ i hi
        cases i with
        | zero => simpa using h0
        | succ j =>
          have h2 := h1 j (by simp at hi; omega)
          have e1 : address + (j + 1) = address + 1 + j := by omega
          rw [e1]
          simpa using h2
    rw [hstep]
    unfold matches_at
    by_cases he : e = -1
    · rw [if_pos he, ih]
      simp [he]
    · rw [if_neg he]
      by_cases hm : (mem address : Int) = e
      · rw [if_pos hm, ih]
        simp [hm]
      · rw [if_neg hm]
        simp [he, hm]

/-- The comparison at a candidate offset decides `qualifies`. -/
theorem matches_at_qualifies (mem : Bytes) (region_base : Nat) (pattern : List Int)
    (offset : Nat) :
    matches_at mem (region_base + offset) pattern =
      decide (qualifies mem region_base pattern offset) := by
  by_cases h : qualifies mem region_base pattern offset
  · rw [decide_eq_true h]
    exact (matches_at_iff _ _ _).mpr h
  · rw [decide_eq_false h]
    cases hm : matches_at mem (region_base + offset) pattern with
    | false => rfl
    | true => exact absurd ((matches_at_iff _ _ _).mp hm) h

/-- The scan over `candidates` offsets from `offset` on, having counted `count`
qualifying offsets before: the qualifying offset of index `occurrence_index - count`
among those still to try. -/
theorem scan_eq (mem : Bytes) (region_base : Nat) (pattern : List Int) (occurrence_index : Nat)
    (candidates offset count : Nat) (hc : count ≤ occurrence_index) :
    scan mem region_base pattern occurrence_index candidates offset count =
      (((List.range' offset candidates).filter
          (fun o => decide (qualifies mem region_base pattern o)))[occurrence_index - count]?).map
        (fun o => region_base + o) := by
  induction candidates generalizing offset count with
  | zero => simp [scan]
  | succ n ih =>
    rw [scan, matches_at_qualifies, List.range'_succ]
    by_cases hq : qualifies mem region_base pattern offset
    · rw [List.filter_cons_of_pos (by simpa using hq)]
      simp only [decide_eq_true hq, if_true]
      by_cases hk : count = occurrence_index
      · rw [if_pos hk]
        have h0 : occurrence_index - count = 0 := by omega
        rw [h0, List.getElem?_cons_zero]
        rfl
      · rw [if_neg hk, ih (offset + 1) (count + 1) (by omega)]
        have h1 : occurrence_index - count = (occurrence_index - (count + 1)) + 1 := by omega
        rw [h1, List.getElem?_cons_succ]
    · rw [List.filter_cons_of_neg (by simpa using hq)]
      simp only [decide_eq_false hq, Bool.false_eq_true, if_false]
      exact ih (offset + 1) count hc

/-- A list without repetition whose only possible member is `x`, and that has it, is `[x]`. -/
theorem eq_singleton_of_nodup (l : List Nat) (x : Nat) (hn : l.Nodup)
    (hm : ∀ y, y ∈ l ↔ y = x) : l = [x] := by
  cases l with
  | nil =>
    have := (hm x).mpr rfl
    cases this
  | cons a t =>
    have ha : a = x := (hm a).mp (List.mem_cons_self _ _)
    cases t with
    | nil => rw [ha]
    | cons b t2 =>
      have hb : b = x := (hm b).mp (List.mem_cons_of_mem _ (List.mem_cons_self _ _))
      have hab : a ≠ b := by
        intro hab
        have h1 := (List.nodup_cons.mp hn).1
        exact h1 (by rw [hab]; exact List.mem_cons_self _ _)
      exact absurd (ha.trans hb.symm) hab

/-- The qualifying offsets are those at which the pattern lies inside the region and
qualifies. -/
theorem mem_qualifying_offsets (mem : Bytes) (region_base region_length : Nat)
    (pattern : List Int) (hlen : pattern.length ≤ region_length) (o : Nat) :
    o ∈ qualifying_offsets mem region_base region_length pattern ↔
      o + pattern.length ≤ region_length ∧ qualifies mem region_base pattern o := by
  unfold qualifying_offsets
  rw [List.mem_filter, List.mem_range]
  simp only [decide_eq_true_eq]
  constructor
  · rintro ⟨h1, h2⟩
    exact ⟨by omega, h2⟩
  · rintro ⟨h1, h2⟩
    exact ⟨by omega, h2⟩

/-- The qualifying offsets are listed in strictly ascending order. -/
theorem qualifying_offsets_ascending (mem : Bytes) (region_base region_length : Nat)
    (pattern : List Int) :
    (qualifying_offsets mem region_base region_length pattern).Pairwise (· < ·) := by
  unfold qualifying_offsets
  exact List.Pairwise.filter _ (List.pairwise_lt_range _)

/-- C18: on a region that can hold the pattern, the scanner returns for the occurrence
index `k` the address of the `k`-th (from 0) of the offsets, in ascending order, at
which every literal element equals the region byte, and "not found" when there are
at most `k` such offsets; with exactly one such offset it returns that address for
`k = 0` and "not found" for `k = 1`. -/
theorem scanner_finds_kth_match (mem : Bytes) (region_base region_length : Nat)
    (pattern : List Int) (k : Nat) (hlen : pattern.length ≤ region_length) :
    (qualifying_offsets mem region_base region_length pattern).Pairwise (· < ·) ∧
    (∀ o, o ∈ qualifying_offsets mem region_base region_length pattern ↔
      o + pattern.length ≤ region_length ∧ qualifies mem region_base pattern o) ∧
    find mem region_base region_length pattern k =
      ((qualifying_offsets mem region_base region_length pattern)[k]?).map
        (fun o => region_base + o) ∧
    ((qualifying_offsets mem region_base region_length pattern).length ≤ k →
      find mem region_base region_length pattern k = none) ∧
    (∀ o, (∀ e ∈ pattern, e ≠ -1) →
      o + pattern.length ≤ region_length → qualifies mem region_base pattern o →
      (∀ o2, o2 + pattern.length ≤ region_length → qualifies mem region_base pattern o2 →
        o2 = o) →
      find mem region_base region_length pattern 0 = some (region_base + o) ∧
      find mem region_base region_length pattern 1 = none) := by
  have hfind : ∀ j, find mem region_base region_length pattern j =
      ((qualifying_offsets mem region_base region_length pattern)[j]?).map
        (fun o => region_base + o) := by
    intro j
    unfold find qualifying_offsets
    rw [if_pos hlen, scan_eq _ _ _ _ _ _ _ (Nat.zero_le _), List.range_eq_range']
    rfl
  refine ⟨qualifying_offsets_ascending _ _ _ _, mem_qualifying_offsets _ _ _ _ hlen,
    hfind k, ?_, ?_⟩
  · intro hk
    rw [hfind, List.getElem?_eq_none hk]
    rfl
  · intro o _ ho hq huniq
    have hone : qualifying_offsets mem region_base region_length pattern = [o] := by
      apply eq_singleton_of_nodup
      · exact (qualifying_offsets_ascending _ _ _ _).imp (fun h => Nat.ne_of_lt h)
      · intro y
        rw [mem_qualifying_offsets _ _ _ _ hlen]
        constructor
        · rintro ⟨h1, h2⟩
          exact huniq y h1 h2
        · intro hy
          rw [hy]
          exact ⟨ho, hq⟩
    rw [hfind, hfind, hone]
    exact ⟨rfl, rfl⟩

/-- Witness of C18: in the region `11 22 33 44 11 22 33 44` the pattern
`11 ?? 33` qualifies at the offsets 0 and 4, and the occurrence of index 1 is at
`region_base + 4`. -/
theorem scanner_finds_kth_match_witness :
    [0x11, -1, 0x33].length ≤ 8 ∧
    qualifying_offsets (scenario_memory 0x400000) 0x400000 8 [0x11, -1, 0x33] = [0, 4] ∧
    find (scenario_memory 0x400000) 0x400000 8 [0x11, -1, 0x33] 1 = some 0x400004 :=
  have hlen : [0x11, -1, 0x33].length ≤ 8 := by decide
  have hq : qualifying_offsets (scenario_memory 0x400000) 0x400000 8 [0x11, -1, 0x33] = [0, 4] := by
    decide
  ⟨hlen, hq, by
    have h := (scanner_finds_kth_match (scenario_memory 0x400000) 0x400000 8 [0x11, -1, 0x33] 1
      hlen).2.2.1
    rw [hq] at h
    exact h⟩

/-! ## The end-to-end scenario -/

/-- The bytes of the scenario region. -/
theorem scenario_memory_at (region_base i : Nat) (h : i < 8) :
    scenario_memory region_base (region_base + i) =
      [0x11, 0x22, 0x33, 0x44, 0x11, 0x22, 0x33, 0x44].getD i 0 := by
  unfold scenario_memory
  have h1 : region_base ≤ region_base + i ∧ region_base + i < region_base + 8 := by omega
  have h2 : region_base + i - region_base = i := by omega
  rw [if_pos h1, h2]

/-- The scanner on the scenario region: the occurrence of index 1 of `11 ?? 33` is at
`region_base + 4`. -/
theorem scenario_find (region_base : Nat) :
    find (scenario_memory region_base) region_base 8 [0x11, -1, 0x33] 1 =
      some (region_base + 4) := by
  have b0 := scenario_memory_at region_base 0 (by omega)
  have b1 := scenario_memory_at region_base 1 (by omega)
  have b2 := scenario_memory_at region_base 2 (by omega)
  have b3 := scenario_memory_at region_base 3 (by omega)
  have b4 := scenario_memory_at region_base 4 (by omega)
  have b5 := scenario_memory_at region_base 5 (by omega)
  have b6 := scenario_memory_at region_base 6 (by omega)
  simp only [List.getD_cons_zero, List.getD_cons_succ] at b0 b1 b2 b3 b4 b5 b6
  rw [Nat.add_zero] at b0
  simp [find, scan, matches_at, Nat.add_assoc, b0, b1, b2, b3, b4, b5, b6]

/-- C19 (as stated, refuted): in the scenario, with the region at `0x400000`, the
resolution with offset 1 captures the two bytes `22 33`, not the single byte `22`. -/
theorem scenario_captures_two_bytes :
    Signature.Signature (FindCode 0x400000 8) (scenario_memory 0x400000) "scenario"
        [0x11, -1, 0x33] 3 1 1 = .ok (Signature.mk "scenario" 0x400005 [0x22, 0x33]) ∧
    (Signature.mk "scenario" 0x400005 [0x22, 0x33]).m_original_data ≠ [0x22] :=
  ⟨rfl, by decide⟩

/-- C19 (amended): for the 8-byte region `11 22 33 44 11 22 33 44`, the pattern
`11 ?? 33`, occurrence index 1 and byte offset 1, the match is at `region_base + 4`,
the effective address is `region_base + 5`, the captured original data is the two
bytes `22 33` up to the end of the match, and after the byte at `region_base + 5` is
overwritten with `FF` and `restore()` is called, that byte is `22` again. -/
theorem scenario_end_to_end (region_base : Nat) (name : String) (prot : Nat → Nat) :
    find (scenario_memory region_base) region_base 8 [0x11, -1, 0x33] 1 =
      some (region_base + 4) ∧
    Signature.Signature (FindCode region_base 8) (scenario_memory region_base) name
        [0x11, -1, 0x33] 3 1 1 = .ok (Signature.mk name (region_base + 5) [0x22, 0x33]) ∧
    (overwrite_value (Machine.mk (scenario_memory region_base) prot) (region_base + 5) 0xFF).mem
        (region_base + 5) = 0xFF ∧
    ((Signature.mk name (region_base + 5) [0x22, 0x33]).restore
        (overwrite_value (Machine.mk (scenario_memory region_base) prot)
          (region_base + 5) 0xFF)).mem (region_base + 5) = 0x22 := by
  have hfind := scenario_find region_base
  refine ⟨hfind, ?_, ?_, ?_⟩
  · have h5 := scenario_memory_at region_base 5 (by omega)
    have h6 := scenario_memory_at region_base 6 (by omega)
    simp only [List.getD_cons_zero, List.getD_cons_succ] at h5 h6
    have haddr : FindCode region_base 8 (scenario_memory region_base) [0x11, -1, 0x33] 3 1 =
        region_base + 4 := by
      unfold FindCode
      simp only [List.take, hfind]
    have hne : FindCode region_base 8 (scenario_memory region_base) [0x11, -1, 0x33] 3 1 ≠ 0 := by
      rw [haddr]; omega
    rw [constructor_found _ _ _ _ _ _ _ hne (by decide), haddr]
    have hr : read_range (scenario_memory region_base) (region_base + 4 + 1)
        (region_base + 4 + 3) = [0x22, 0x33] := by
      have e1 : region_base + 4 + 3 - (region_base + 4 + 1) = 2 := by omega
      have e2 : region_base + 4 + 1 + 0 = region_base + 5 := by omega
      have e3 : region_base + 4 + 1 + 1 = region_base + 6 := by omega
      simp [read_range, e1, List.range_succ, e2, e3, h5, h6]
    rw [hr]
  · rw [overwrite_value_mem]
    simp [store]
  · have hspan := restore_span (Signature.mk name (region_base + 5) [0x22, 0x33])
      (overwrite_value (Machine.mk (scenario_memory region_base) prot) (region_base + 5) 0xFF)
    simp only [Signature.data, List.length_cons, List.length_nil, read_range] at hspan
    have e1 : region_base + 5 + (0 + 1 + 1) - (region_base + 5) = 2 := by omega
    rw [e1] at hspan
    simp [List.range_succ] at hspan
    exact hspan.1

/-! ## Following an offset computed from the end of the operand -/

/-- C21: for 32-bit addresses `p` and `d`, when the 32-bit word stored at `p` is
`calculate_32bit_offset(p + 4, d)`, the offset from the address right after the
operand, `follow_32bit_offset(p)` is `d`; the arithmetic is modulo `2^32` and nothing
is asked of the distance between `p` and `d`. -/
theorem follow_offset_from_operand_end (mem : Bytes) (p d : Nat) (_hp : p < 4294967296)
    (hd : d < 4294967296)
    (hword : to_int32 (read_uint32 mem p) = calculate_32bit_offset (p + 4) d) :
    follow_32bit_offset mem p = d := by
  unfold follow_32bit_offset
  unfold calculate_32bit_offset to_int32 to_uint32 at hword
  unfold to_uint32
  dsimp only at hword ⊢
  split at hword <;> split at hword <;> omega

/-- Witness of C21: the operand at `0x10` pointing at `0xFFFFFFF0`, further than
`2^31` away. -/
theorem follow_offset_from_operand_end_witness :
    (0x10 : Nat) < 4294967296 ∧ (0xFFFFFFF0 : Nat) < 4294967296 ∧
    to_int32 (read_uint32 (store_int32 (fun _ => 0) 0x10 (calculate_32bit_offset (0x10 + 4)
      0xFFFFFFF0)) 0x10) = calculate_32bit_offset (0x10 + 4) 0xFFFFFFF0 ∧
    follow_32bit_offset (store_int32 (fun _ => 0) 0x10 (calculate_32bit_offset (0x10 + 4)
      0xFFFFFFF0)) 0x10 = 0xFFFFFFF0 :=
  have hp : (0x10 : Nat) < 4294967296 := by decide
  have hd : (0xFFFFFFF0 : Nat) < 4294967296 := by decide
  have hword : to_int32 (read_uint32 (store_int32 (fun _ => 0) 0x10
      (calculate_32bit_offset (0x10 + 4) 0xFFFFFFF0)) 0x10) =
      calculate_32bit_offset (0x10 + 4) 0xFFFFFFF0 := by decide
  ⟨hp, hd, hword, follow_offset_from_operand_end _ 0x10 0xFFFFFFF0 hp hd hword⟩

/-! ## The built-in catalog -/

/-- C22: for every entry of the built-in catalog the byte offset is strictly less than
the pattern length and every pattern element is `-1` or in `0..255`; so whenever the
constructor resolves the entry, the range `[match + offset, match + length)` it
captures is well formed and not empty: it holds `length - offset > 0` bytes. -/
theorem catalog_entries_well_formed (e : CatalogEntry) (he : e ∈ catalog) :
    e.offset < e.data.length ∧
    (∀ x ∈ e.data, x = -1 ∨ (0 ≤ x ∧ x ≤ 255)) ∧
    (∀ (FindCode : Scanner) (mem : Bytes) (s : Signature),
      Signature.Signature FindCode mem e.name e.data e.data.length e.offset e.match_num = .ok s →
      FindCode mem e.data e.data.length e.match_num + e.offset <
        FindCode mem e.data e.data.length e.match_num + e.data.length ∧
      s.m_original_data.length = e.data.length - e.offset ∧
      0 < s.m_original_data.length) := by
  have hall : ∀ c ∈ catalog,
      c.offset < c.data.length ∧ (∀ x ∈ c.data, x = -1 ∨ (0 ≤ x ∧ x ≤ 255)) := by decide
  obtain ⟨hoff, hel⟩ := hall e he
  refine ⟨hoff, hel, ?_⟩
  intro FindCode mem s hs
  obtain ⟨_, h⟩ := constructor_ok _ _ _ _ _ _ _ _ hs
  subst h
  simp only [read_range_length]
  omega

/-- Witness of C22: the entry `text_font_data`, whose offset 13 is the largest of the
catalog, in a pattern of 19 elements. -/
theorem catalog_entries_well_formed_witness :
    CatalogEntry.mk "text_font_data" 13 0 [0xC7, 0x44, 0x24, 0x0C, 0xEB, 0xEA, 0xEA, 0x3E, 0x8B,
      0x4C, 0x24, 0x0C, 0xA3, -1, -1, -1, -1, 0x8B, 0xC2] ∈ catalog ∧
    (13 : Nat) < ([0xC7, 0x44, 0x24, 0x0C, 0xEB, 0xEA, 0xEA, 0x3E, 0x8B,
      0x4C, 0x24, 0x0C, 0xA3, -1, -1, -1, -1, 0x8B, 0xC2] : List Int).length :=
  have he : CatalogEntry.mk "text_font_data" 13 0 [0xC7, 0x44, 0x24, 0x0C, 0xEB, 0xEA, 0xEA,
      0x3E, 0x8B, 0x4C, 0x24, 0x0C, 0xA3, -1, -1, -1, -1, 0x8B, 0xC2] ∈ catalog := by decide
  ⟨he, (catalog_entries_well_formed _ he).1⟩

end Balltze.Memory
